import Mathlib

/-!
Verification development for the combat-simulation core of the
sunsetBrawler-caosBeach repository (Entity.ts, Player.ts, Enemy.ts,
GameEngine.ts, types.ts).

Modelling conventions:
* JavaScript `number` is modelled by exact rationals (`Rat`); the constants
  involved in the verified properties (12, 0.8, 6.25, 0.96, ...) are exact in
  both models.
* Count-down timers that the source only ever assigns non-negative values and
  decrements under a `> 0`-style guard are modelled by `Nat`.
* `Math.sqrt` appears in the source (a) inside comparisons `sqrt d2 < r`,
  modelled exactly by the equivalent square comparison (`sqrtLt`, `sqrtGt`),
  and (b) as a value used for normalising direction vectors, modelled by
  `ratSqrt`, a rational approximation that agrees with the real square root on
  perfect squares (every concrete input evaluated below is chosen so that the
  relevant distances are perfect squares).
* `Math.random()` is modelled by threading an explicit list of rationals
  (`randPop`); each call pops the head (flooring to 0 when exhausted, which no
  evaluated scenario reaches).
* Rendering, audio hooks and the stats callback have no effect on simulation
  state and are omitted.
-/

namespace SunsetBrawler

set_option maxRecDepth 100000

/-- Models `Math.sqrt` as a rational: `sqrt (n / d) = sqrt (n * d) / d`, with
`Nat.sqrt` (integer square root) inside.  Agrees with the real square root
whenever `n * d` is a perfect square; only used where the source needs a
numeric value of a square root. -/
def ratSqrt (q : Rat) : Rat := (Nat.sqrt (q.num.toNat * q.den) : Rat) / (q.den : Rat)

/-- Models the source comparison `Math.sqrt d2 < r` (for `d2 ≥ 0`) exactly:
`√d2 < r ↔ 0 < r ∧ d2 < r²`. -/
def sqrtLt (d2 r : Rat) : Prop := 0 < r ∧ d2 < r * r

/-- Models the source comparison `Math.sqrt d2 > r` (for `d2 ≥ 0`) exactly:
`√d2 > r ↔ r < 0 ∨ r² < d2`. -/
def sqrtGt (d2 r : Rat) : Prop := r < 0 ∨ r * r < d2

instance (d2 r : Rat) : Decidable (sqrtLt d2 r) :=
  inferInstanceAs (Decidable (0 < r ∧ d2 < r * r))

instance (d2 r : Rat) : Decidable (sqrtGt d2 r) :=
  inferInstanceAs (Decidable (r < 0 ∨ r * r < d2))

/-- One `Math.random()` call: pop the head of the explicit random stream. -/
def randPop : List Rat → Rat × List Rat
  | [] => (0, [])
  | r :: rs => (r, rs)

/-- `EntityState` enum from `types.ts`. -/
inductive EntityState where
  | IDLE
  | WALKING
  | ATTACKING_JAB
  | ATTACKING_STRAIGHT
  | WINDING_UP
  | DODGING
  | HIT
  | DEAD
deriving DecidableEq, Repr

export EntityState (IDLE WALKING ATTACKING_JAB ATTACKING_STRAIGHT WINDING_UP DODGING HIT DEAD)

/-- `Rect` from `types.ts`. -/
structure Rect where
  x : Rat
  y : Rat
  width : Rat
  height : Rat
deriving DecidableEq, Repr

/-- `PHASE_TARGETS` from `types.ts`. -/
def PHASE_TARGETS : List Nat := [100, 1000, 3000, 5000, 10000]

/-- `AnimationConfig` from `Entity.ts`. -/
structure AnimationConfig where
  frames : Nat
  speed : Nat
  loop : Bool
  activeFrames : Option (List Nat)
deriving DecidableEq, Repr

/-- `ANIMATION_DATA` from `Entity.ts`. -/
def ANIMATION_DATA : EntityState → AnimationConfig
  | IDLE => ⟨4, 12, true, none⟩
  | WALKING => ⟨6, 8, true, none⟩
  | ATTACKING_JAB => ⟨4, 5, false, some [1, 2]⟩
  | ATTACKING_STRAIGHT => ⟨6, 6, false, some [2, 3, 4]⟩
  | WINDING_UP => ⟨3, 10, true, none⟩
  | DODGING => ⟨4, 5, false, none⟩
  | HIT => ⟨2, 10, false, none⟩
  | DEAD => ⟨5, 12, false, none⟩

/-- The `Entity` base class from `Entity.ts` (rendering-only members omitted). -/
structure Entity where
  x : Rat
  y : Rat
  width : Rat := 40
  height : Rat := 60
  hp : Rat
  maxHp : Rat
  state : EntityState := IDLE
  facing : Int := 1
  speed : Rat := 4
  scale : Rat := 1
  vx : Rat := 0
  vy : Rat := 0
  stateTimer : Nat := 0
  invincibleTimer : Nat := 0
  currentFrame : Nat := 0
  animationTick : Nat := 0
deriving DecidableEq, Repr

namespace Entity

/-- The `Entity` constructor. -/
def new (x y hp : Rat) : Entity := { x := x, y := y, hp := hp, maxHp := hp }

/-- `Entity.getHitbox`. -/
def getHitbox (e : Entity) : Rect :=
  let w := e.width * e.scale
  let h := e.height * e.scale
  { x := e.x - w / 2, y := e.y - h, width := w, height := h }

/-- `Entity.getAttackHitbox`: non-null only on an active frame of an attack
animation, projected forward in the facing direction. -/
def getAttackHitbox (e : Entity) : Option Rect :=
  match (ANIMATION_DATA e.state).activeFrames with
  | none => none
  | some frames =>
    if e.currentFrame ∈ frames then
      let baseReach : Rat := if e.state = ATTACKING_JAB then 35 else 55
      let reach := baseReach * e.scale
      let hWidth := reach
      let hHeight := 30 * e.scale
      let w := e.width * e.scale
      let h := e.height * e.scale
      some { x := if e.facing = 1 then e.x + w / 4 else e.x - w / 4 - hWidth,
             y := e.y - h * 0.8,
             width := hWidth,
             height := hHeight }
    else none

/-- `Entity.setState`: no-op when re-entering a looping state, otherwise
switches state and resets the animation cursor. -/
def setState (e : Entity) (newState : EntityState) : Entity :=
  if e.state = newState ∧ (ANIMATION_DATA e.state).loop then e
  else { e with state := newState, currentFrame := 0, animationTick := 0 }

/-- `Entity.takeDamage`: returns whether the damage was applied together with
the updated entity. -/
def takeDamage (e : Entity) (amount : Rat) (knockbackDir : Rat) : Bool × Entity :=
  if e.invincibleTimer > 0 ∨ e.state = DEAD then (false, e)
  else
    let e := { e with hp := e.hp - amount }
    let e := e.setState HIT
    let e := { e with stateTimer := 15, invincibleTimer := 30,
                      vx := knockbackDir * (12 / e.scale) }
    if e.hp ≤ 0 then (true, { e.setState DEAD with hp := 0 })
    else (true, e)

/-- First part of `Entity.update`: invincibility decay. -/
def invDecay (e : Entity) : Entity :=
  if e.invincibleTimer > 0 then { e with invincibleTimer := e.invincibleTimer - 1 } else e

/-- Second part of `Entity.update`: velocity integration and 0.8 friction. -/
def physics (e : Entity) : Entity :=
  { e with x := e.x + e.vx, y := e.y + e.vy, vx := e.vx * 0.8, vy := e.vy * 0.8 }

/-- Third part of `Entity.update`: animation cursor advance, looping for loop
states, clamping and auto-returning to `IDLE` for finished one-shot states
(except `DEAD`, which clamps and stays). -/
def animAdvance (e : Entity) : Entity :=
  let config := ANIMATION_DATA e.state
  let e := { e with animationTick := e.animationTick + 1 }
  if e.animationTick ≥ config.speed then
    let e := { e with animationTick := 0, currentFrame := e.currentFrame + 1 }
    if e.currentFrame ≥ config.frames then
      if config.loop then { e with currentFrame := 0 }
      else
        let e := { e with currentFrame := config.frames - 1 }
        if e.state ≠ DEAD then e.setState IDLE else e
    else e
  else e

/-- Last part of `Entity.update`: `stateTimer` count-down with auto-transition
`HIT → IDLE` when it reaches 0. -/
def stateTimerStep (e : Entity) : Entity :=
  if e.stateTimer > 0 then
    let e := { e with stateTimer := e.stateTimer - 1 }
    if e.stateTimer = 0 ∧ e.state = HIT then e.setState IDLE else e
  else e

/-- `Entity.update`, composed in source order. -/
def update (e : Entity) : Entity :=
  stateTimerStep (animAdvance (physics (invDecay e)))

end Entity

/-- `Keys` pressed this tick (the subset of key codes the engine reads). -/
structure Keys where
  keyW : Bool := false
  keyA : Bool := false
  keyS : Bool := false
  keyD : Bool := false
  keyJ : Bool := false
  keyK : Bool := false
  keyL : Bool := false
  keyE : Bool := false
deriving DecidableEq, Repr

/-- The `Player` class from `Player.ts` (extends `Entity`). -/
structure Player extends Entity where
  specialUnlocked : Bool := false
  specialCooldownTimer : Nat := 0
  isChargingSpecial : Bool := false
  specialChargeTimer : Nat := 0
  specialAttackActive : Bool := false
  specialAttackRadius : Rat := 0
  specialActiveTimer : Nat := 0
deriving DecidableEq, Repr

/-- `Player.SPECIAL_COOLDOWN_MAX` (15 seconds at 60 fps). -/
def SPECIAL_COOLDOWN_MAX : Nat := 60 * 15

/-- `Player.SPECIAL_CHARGE_MAX`. -/
def SPECIAL_CHARGE_MAX : Nat := 45

/-- `Player.SPECIAL_ACTIVE_MAX`. -/
def SPECIAL_ACTIVE_MAX : Nat := 60

/-- `Player.MAX_SPECIAL_RADIUS`. -/
def MAX_SPECIAL_RADIUS : Rat := 250

namespace Player

/-- The `Player` constructor: `super(x, y, 100)` with speed 5.5. -/
def new (x y : Rat) : Player :=
  { toEntity := { Entity.new x y 100 with speed := 5.5 } }

/-- Inherited `setState` applied to the entity part. -/
def setState (p : Player) (s : EntityState) : Player :=
  { p with toEntity := p.toEntity.setState s }

/-- Inherited `takeDamage` applied to the entity part. -/
def takeDamage (p : Player) (amount : Rat) (knockbackDir : Rat) : Bool × Player :=
  let (ok, e) := p.toEntity.takeDamage amount knockbackDir
  (ok, { p with toEntity := e })

/-- Inherited `getHitbox`. -/
def getHitbox (p : Player) : Rect := p.toEntity.getHitbox

/-- Inherited `getAttackHitbox`. -/
def getAttackHitbox (p : Player) : Option Rect := p.toEntity.getAttackHitbox

/-- `Player.update`: special-attack lifecycle (charging → active → idle), then
`super.update()`, then cooldown decay.  The caller-supplied `onSpecial` audio
hook is omitted (no simulation effect). -/
def update (p : Player) : Player :=
  let p :=
    if p.isChargingSpecial then
      let p := { p with specialChargeTimer := p.specialChargeTimer - 1 }
      if p.specialChargeTimer = 0 then
        { p with isChargingSpecial := false, specialAttackActive := true,
                 specialAttackRadius := 0, specialActiveTimer := SPECIAL_ACTIVE_MAX }
      else p
    else if p.specialAttackActive then
      let p := { p with specialAttackRadius :=
                   p.specialAttackRadius + MAX_SPECIAL_RADIUS / ((SPECIAL_ACTIVE_MAX : Rat) / 1.5) }
      let p := if p.specialAttackRadius > MAX_SPECIAL_RADIUS then
                 { p with specialAttackRadius := MAX_SPECIAL_RADIUS } else p
      let p := { p with specialActiveTimer := p.specialActiveTimer - 1 }
      if p.specialActiveTimer = 0 then
        { p with specialAttackActive := false, specialAttackRadius := 0 }
      else p
    else p
  let p := { p with toEntity := p.toEntity.update }
  if p.specialCooldownTimer > 0 then
    { p with specialCooldownTimer := p.specialCooldownTimer - 1 }
  else p

/-- The horizontal movement intent (`dx` in `handleInput`). -/
def keysDx (keys : Keys) : Int :=
  (if keys.keyA then -1 else 0) + (if keys.keyD then 1 else 0)

/-- The vertical movement intent (`dy` in `handleInput`). -/
def keysDy (keys : Keys) : Int :=
  (if keys.keyW then -1 else 0) + (if keys.keyS then 1 else 0)

/-- The normalised movement applied to the player (`dx/length * speed`,
`dy/length * speed` with `length = sqrt (dx² + dy²)`). -/
def moveStep (p : Player) (keys : Keys) : Player :=
  { p with toEntity :=
      { p.toEntity with
          x := p.x + ((keysDx keys : Rat) /
                 ratSqrt ((keysDx keys * keysDx keys + keysDy keys * keysDy keys : Int) : Rat)) * p.speed,
          y := p.y + ((keysDy keys : Rat) /
                 ratSqrt ((keysDx keys * keysDx keys + keysDy keys * keysDy keys : Int) : Rat)) * p.speed } }

/-- `Player.handleInput`: intent resolution in source priority order
(special > dodge > dodge-displacement > attacks > movement).  The source's
local aliases (`isAttacking`, `dx`, `dy`, `length`) are inlined /
named top-level (`keysDx`, `keysDy`, `moveStep`); the field-update order
within a branch is commuted where the updates are independent, which leaves
every branch's resulting record identical to the source's. -/
def handleInput (p : Player) (keys : Keys) : Player :=
  if p.state = HIT ∨ p.state = DEAD ∨ p.isChargingSpecial ∨ p.specialAttackActive then p
  else if keys.keyE ∧ p.specialUnlocked ∧ p.specialCooldownTimer = 0 then
    { p.setState IDLE with
        isChargingSpecial := true
        specialChargeTimer := SPECIAL_CHARGE_MAX
        specialCooldownTimer := SPECIAL_COOLDOWN_MAX }
  else if keys.keyL ∧ p.state ≠ DODGING then
    { p.setState DODGING with toEntity :=
        { (p.setState DODGING).toEntity with invincibleTimer := 35 } }
  else if p.state = DODGING then
    { p with toEntity :=
        { p.toEntity with x := p.x + (p.facing : Rat) * p.speed * 2.8 } }
  else if ¬(p.state = ATTACKING_JAB ∨ p.state = ATTACKING_STRAIGHT) ∧ keys.keyJ then
    p.setState ATTACKING_JAB
  else if ¬(p.state = ATTACKING_JAB ∨ p.state = ATTACKING_STRAIGHT) ∧ keys.keyK then
    p.setState ATTACKING_STRAIGHT
  else if keysDx keys ≠ 0 ∨ keysDy keys ≠ 0 then
    if keysDx keys ≠ 0 ∧ ¬(p.state = ATTACKING_JAB ∨ p.state = ATTACKING_STRAIGHT) then
      if ¬(p.state = ATTACKING_JAB ∨ p.state = ATTACKING_STRAIGHT) then
        (moveStep { p with toEntity :=
            { p.toEntity with facing := if keysDx keys > 0 then 1 else -1 } } keys).setState WALKING
      else
        moveStep { p with toEntity :=
            { p.toEntity with facing := if keysDx keys > 0 then 1 else -1 } } keys
    else
      if ¬(p.state = ATTACKING_JAB ∨ p.state = ATTACKING_STRAIGHT) then
        (moveStep p keys).setState WALKING
      else moveStep p keys
  else
    if ¬(p.state = ATTACKING_JAB ∨ p.state = ATTACKING_STRAIGHT) then p.setState IDLE
    else p

end Player

/-- Boss projectile record from `Enemy.ts`. -/
structure Projectile where
  x : Rat
  y : Rat
  vx : Rat
  vy : Rat
  life : Nat
deriving DecidableEq, Repr

/-- The `Enemy` class from `Enemy.ts` (extends `Entity`).  The live `target`
reference is not stored: it always aliases the engine's player object, so every
method taking it receives the current player entity as an explicit argument.
The render-only `color` member is omitted. -/
structure Enemy extends Entity where
  isBoss : Bool := false
  aiTick : Nat := 0
  windupTimer : Nat := 0
  nextAttackType : EntityState := ATTACKING_JAB
  dodgeCooldown : Nat := 0
  blastCooldown : Nat := 0
  isChargingBlast : Bool := false
  blastChargeTimer : Nat := 0
  blastActive : Bool := false
  blastRadius : Rat := 0
  projectiles : List Projectile := []
  projectileCooldown : Nat := 0
  isCastingProjectiles : Bool := false
  castTimer : Nat := 0
deriving DecidableEq, Repr

/-- `Enemy.MAX_BLAST_RADIUS`. -/
def MAX_BLAST_RADIUS : Rat := 180

namespace Enemy

/-- The `Enemy` constructor; `speedRoll` is the `Math.random()` drawn inside it. -/
def new (x y : Rat) (isBoss : Bool := false) (hp : Rat := 30) (scale : Rat := 1)
    (speedRoll : Rat := 0) : Enemy :=
  { toEntity := { Entity.new x y hp with
      speed := (1.5 + speedRoll * 2) * (if isBoss then 0.7 else 1), scale := scale },
    isBoss := isBoss }

/-- Inherited `setState` applied to the entity part. -/
def setState (en : Enemy) (s : EntityState) : Enemy :=
  { en with toEntity := en.toEntity.setState s }

/-- Inherited `takeDamage` applied to the entity part. -/
def takeDamage (en : Enemy) (amount : Rat) (knockbackDir : Rat) : Bool × Enemy :=
  let (ok, e) := en.toEntity.takeDamage amount knockbackDir
  (ok, { en with toEntity := e })

/-- Inherited `getHitbox`. -/
def getHitbox (en : Enemy) : Rect := en.toEntity.getHitbox

/-- Inherited `getAttackHitbox`. -/
def getAttackHitbox (en : Enemy) : Option Rect := en.toEntity.getAttackHitbox

/-- Squared distance from the enemy to its target (`dx*dx + dy*dy`). -/
def aiDist2 (en : Enemy) (tgt : Entity) : Rat :=
  (tgt.x - en.x) * (tgt.x - en.x) + (tgt.y - en.y) * (tgt.y - en.y)

/-- `updateAI` preamble on the decision path: `aiTick++` and facing update. -/
def aiFace (en : Enemy) (tgt : Entity) : Enemy :=
  { en with aiTick := en.aiTick + 1,
            toEntity := { en.toEntity with facing := if tgt.x - en.x > 0 then 1 else -1 } }

/-- A successful projectile-cast roll: 60-tick casting window from `IDLE`. -/
def aiCastArm (en : Enemy) : Enemy :=
  { en.setState IDLE with isCastingProjectiles := true, castTimer := 60 }

/-- A successful blast roll: 60-tick charge window from `IDLE`. -/
def aiBlastArm (en : Enemy) : Enemy :=
  { en.setState IDLE with isChargingBlast := true, blastChargeTimer := 60 }

/-- Chase: walk straight toward the target at `speed`. -/
def aiChase (en : Enemy) (tgt : Entity) : Enemy :=
  { en.setState WALKING with toEntity :=
      { (en.setState WALKING).toEntity with
          x := en.x + (tgt.x - en.x) / ratSqrt (aiDist2 en tgt) * en.speed,
          y := en.y + (tgt.y - en.y) / ratSqrt (aiDist2 en tgt) * en.speed } }

/-- A telegraphed attack: choose jab (60%) or straight, 15-tick wind-up. -/
def aiAttackRoll (en : Enemy) (r : Rat) : Enemy :=
  { ({ en.setState IDLE with
        nextAttackType := if r > 0.4 then ATTACKING_JAB else ATTACKING_STRAIGHT }).setState
      WINDING_UP with windupTimer := 15 }

/-- Chase when beyond `80 * scale`, otherwise idle with a periodic attack
roll every 20 (boss) / 40 ticks. -/
def aiChaseOrAttack (en : Enemy) (tgt : Entity) (rng : List Rat) : Enemy × List Rat :=
  if sqrtGt (aiDist2 en tgt) (80 * en.scale) then (aiChase en tgt, rng)
  else
    if en.aiTick % (if en.isBoss then 20 else 40) = 0 then
      (aiAttackRoll en (randPop rng).1, (randPop rng).2)
    else (en.setState IDLE, rng)

/-- `updateAI` after the boss-cast check: boss blast roll, then chase/attack. -/
def aiAfterCast (en : Enemy) (tgt : Entity) (rng : List Rat) : Enemy × List Rat :=
  if en.isBoss ∧ en.blastCooldown = 0 ∧ sqrtLt (aiDist2 en tgt) 180 then
    if (randPop rng).1 < 0.02 then (aiBlastArm en, (randPop rng).2)
    else aiChaseOrAttack en tgt (randPop rng).2
  else aiChaseOrAttack en tgt rng

/-- `Enemy.updateAI`: the per-tick AI decision.  `target` is the live player
entity (`none` models an unset target).  Returns the updated enemy and the
remaining random stream; each `Math.random()` call pops exactly where the
source calls it (a failed 2% roll still consumes its draw).  The source's
local aliases (`dx`, `dy`, `dist`) are inlined (`aiDist2`, and the square
comparisons `sqrtGt`/`sqrtLt` for `dist > c` / `dist < c`); the `aiTick++`
and facing assignment commute with the boss-roll conditions (which read
neither) and are applied by `aiFace` on every decision-path branch. -/
def updateAI (en : Enemy) (target : Option Entity) (rng : List Rat) :
    Enemy × List Rat :=
  match target with
  | none => (en, rng)
  | some tgt =>
    if en.state = HIT ∨ en.state = DEAD ∨ en.state = DODGING then (en, rng)
    else if en.state = ATTACKING_JAB ∨ en.state = ATTACKING_STRAIGHT ∨
            en.state = WINDING_UP ∨ en.isChargingBlast ∨ en.blastActive ∨
            en.isCastingProjectiles then (en, rng)
    else
      if en.isBoss ∧ 500 ≤ en.maxHp ∧ en.projectileCooldown = 0 ∧
         sqrtGt (aiDist2 en tgt) 150 then
        if (randPop rng).1 < 0.02 then (aiCastArm (aiFace en tgt), (randPop rng).2)
        else aiAfterCast (aiFace en tgt) tgt (randPop rng).2
      else aiAfterCast (aiFace en tgt) tgt rng

/-- `Enemy.tryDodge`: cooldown/state-guarded random dodge roll. -/
def tryDodge (en : Enemy) (rng : List Rat) : Bool × Enemy × List Rat :=
  if en.dodgeCooldown > 0 ∨ en.state = DEAD ∨ en.state = DODGING then (false, en, rng)
  else
    let (r, rng) := randPop rng
    if r < (if en.isBoss then 0.35 else 0.12) then
      let en := en.setState DODGING
      (true, { en with toEntity := { en.toEntity with stateTimer := 25, invincibleTimer := 25 },
                       dodgeCooldown := 120 }, rng)
    else (false, en, rng)

/-- One projectile emitted while casting: aimed at the target's current
position with speed 7 (`cos (atan2 ty tx) * 7 = 7 * tx / √(tx² + ty²)`,
modelled with `ratSqrt`). -/
def spawnProjectile (en : Enemy) (tgt : Entity) : Projectile :=
  let tx := tgt.x - en.x
  let ty := tgt.y - en.y
  let dist := ratSqrt (tx * tx + ty * ty)
  { x := en.x, y := en.y - 45, vx := tx / dist * 7, vy := ty / dist * 7, life := 140 }

/-- The body of the projectile-movement `forEach`: integrate position, age by
one tick, and blend toward homing while the remaining life (after the
decrement) exceeds 60. -/
def projectileStep (target : Option Entity) (p : Projectile) : Projectile :=
  let p := { p with x := p.x + p.vx, y := p.y + p.vy, life := p.life - 1 }
  match target with
  | none => p
  | some tgt =>
    if p.life > 60 then
      let tx := tgt.x - p.x
      let ty := (tgt.y - 30) - p.y
      let dist := ratSqrt (tx * tx + ty * ty)
      { p with vx := p.vx * 0.96 + tx / dist * 0.45,
               vy := p.vy * 0.96 + ty / dist * 0.45 }
    else p

/-- The projectile-movement loop.  The source iterates with
`Array.prototype.forEach` and calls `splice(idx, 1)` on expiry; per the
ECMAScript semantics the element count is captured before the loop, each index
is visited only while it is still in bounds, and removing index `idx` shifts
later elements down so the element after a removed one is skipped this tick.
That semantics is reproduced literally here. -/
def projectilesMove (target : Option Entity) (ps : List Projectile) : List Projectile :=
  (List.range ps.length).foldl
    (fun ps idx =>
      if _h : idx < ps.length then
        let p := projectileStep target ps[idx]
        if p.life = 0 then ps.eraseIdx idx else ps.set idx p
      else ps)
    ps

/-- `Enemy.update`, first statement: dodge cooldown decay. -/
def dodgeCooldownStep (en : Enemy) : Enemy :=
  if en.dodgeCooldown > 0 then { en with dodgeCooldown := en.dodgeCooldown - 1 } else en

/-- `Enemy.update`: dodge displacement at 2.8 × speed along facing. -/
def dodgeMoveStep (en : Enemy) : Enemy :=
  if en.state = DODGING then
    { en with toEntity :=
        { en.toEntity with x := en.x + (en.facing : Rat) * (en.speed * 2.8) } }
  else en

/-- `Enemy.update`: wind-up countdown, committing to the telegraphed attack. -/
def windupStep (en : Enemy) : Enemy :=
  if en.state = WINDING_UP then
    if en.windupTimer - 1 = 0 then
      ({ en with windupTimer := en.windupTimer - 1 }).setState en.nextAttackType
    else { en with windupTimer := en.windupTimer - 1 }
  else en

/-- `Enemy.update`: blast charge countdown, arming the active blast. -/
def blastChargeStep (en : Enemy) : Enemy :=
  if en.isChargingBlast then
    if en.blastChargeTimer - 1 = 0 then
      { en with isChargingBlast := false, blastActive := true, blastRadius := 0,
                blastCooldown := 350, blastChargeTimer := en.blastChargeTimer - 1 }
    else { en with blastChargeTimer := en.blastChargeTimer - 1 }
  else en

/-- `Enemy.update`: blast radius growth, deactivating past the maximum. -/
def blastActiveStep (en : Enemy) : Enemy :=
  if en.blastActive then
    if en.blastRadius + MAX_BLAST_RADIUS * en.scale / 60 > MAX_BLAST_RADIUS * en.scale then
      { en with blastActive := false, blastRadius := 0 }
    else { en with blastRadius := en.blastRadius + MAX_BLAST_RADIUS * en.scale / 60 }
  else en

/-- `Enemy.update`: blast cooldown decay. -/
def blastCooldownStep (en : Enemy) : Enemy :=
  if en.blastCooldown > 0 then { en with blastCooldown := en.blastCooldown - 1 } else en

/-- The emission inside the cast window: one projectile at the target's
current position every 20 ticks of the cast timer. -/
def castEmit (target : Option Entity) (en : Enemy) : Enemy :=
  if en.castTimer % 20 = 0 ∧ en.castTimer > 0 then
    match target with
    | some tgt => { en with projectiles := en.projectiles ++ [en.spawnProjectile tgt] }
    | none => en
  else en

/-- `Enemy.update`: projectile-cast countdown, emitting one projectile every
20 ticks of the 60-tick cast window, then arming the 450-tick cooldown. -/
def castStep (target : Option Entity) (en : Enemy) : Enemy :=
  if en.isCastingProjectiles then
    if (castEmit target { en with castTimer := en.castTimer - 1 }).castTimer = 0 then
      { castEmit target { en with castTimer := en.castTimer - 1 } with
          isCastingProjectiles := false, projectileCooldown := 450 }
    else castEmit target { en with castTimer := en.castTimer - 1 }
  else en

/-- `Enemy.update`: projectile cooldown decay. -/
def projectileCooldownStep (en : Enemy) : Enemy :=
  if en.projectileCooldown > 0 then { en with projectileCooldown := en.projectileCooldown - 1 } else en

/-- `Enemy.update`: dodge cooldown, dodge displacement, wind-up resolution,
boss blast cycle, boss projectile-cast cycle, projectile movement, then
`super.update()`, in source order. -/
def update (en : Enemy) (target : Option Entity) : Enemy :=
  let en := dodgeCooldownStep en
  let en := dodgeMoveStep en
  let en := windupStep en
  let en := blastChargeStep en
  let en := blastActiveStep en
  let en := blastCooldownStep en
  let en := castStep target en
  let en := projectileCooldownStep en
  let en := { en with projectiles := projectilesMove target en.projectiles }
  { en with toEntity := en.toEntity.update }

end Enemy

/-- `GameEngine.checkCollision`: strict axis-aligned rectangle overlap. -/
def checkCollision (r1 r2 : Rect) : Prop :=
  r1.x < r2.x + r2.width ∧ r1.x + r1.width > r2.x ∧
  r1.y < r2.y + r2.height ∧ r1.y + r1.height > r2.y

instance (r1 r2 : Rect) : Decidable (checkCollision r1 r2) :=
  inferInstanceAs (Decidable (_ ∧ _ ∧ _ ∧ _))

/-- The mutable state of `GameEngine` (canvas, key listeners, the
`requestAnimationFrame` id and the decorative clouds/palms are omitted; the
canvas is the fixed 800×600 logical space).  `rng` is the explicit stream
backing `Math.random()`. -/
structure GameState where
  player : Player
  enemies : List Enemy
  keys : Keys
  chaos : Nat := 0
  phase : Nat := 1
  streak : Nat := 0
  multiplier : Nat := 1
  isGameOver : Bool := false
  isVictory : Bool := false
  isPaused : Bool := false
  isTransitioning : Bool := false
  bossSequenceActive : Bool := false
  bossSpawnedForCurrentPhase : Bool := false
  hitstopTimer : Nat := 0
  rng : List Rat
deriving DecidableEq, Repr

namespace GameEngine

/-- `GameEngine.spawnReplacement`: one off-screen enemy at a random side and
height; the third draw is the speed roll inside the `Enemy` constructor. -/
def spawnReplacement (s : GameState) : GameState :=
  let (r1, rng) := randPop s.rng
  let side : Rat := if r1 > 0.5 then -150 else 950
  let (r2, rng) := randPop rng
  let (r3, rng) := randPop rng
  let enemy := Enemy.new side (250 + r2 * 330) false 30 1 r3
  { s with enemies := s.enemies ++ [enemy], rng := rng }

/-- `GameEngine.spawnEnemies`: populate the arena up to the phase-dependent
count unless spawning is suppressed. -/
def spawnEnemies (s : GameState) : GameState :=
  if s.isTransitioning ∨ s.bossSequenceActive ∨ s.isVictory then s
  else
    let count := if s.phase ≥ 3 then 5 else 2 + s.phase
    (List.range count).foldl (fun s _ => spawnReplacement s) s

/-- `GameEngine.spawnBoss`: keep only the dead husks, push the boss at the
right edge, then top the roster back up to 5 living entities.  The source uses
a `while` loop; since every `spawnReplacement` adds exactly one living enemy,
it runs exactly `5 - living` times, which is how it is modelled. -/
def spawnBoss (hp scale : Rat) (s : GameState) : GameState :=
  let s := { s with bossSequenceActive := true, bossSpawnedForCurrentPhase := true }
  let s := { s with enemies := s.enemies.filter (fun e => e.state = DEAD) }
  let (r, rng) := randPop s.rng
  let boss := Enemy.new (800 + 120) 450 true hp scale r
  let s := { s with enemies := s.enemies ++ [boss], rng := rng }
  let living := (s.enemies.filter (fun e => e.state ≠ DEAD)).length
  (List.range (5 - living)).foldl (fun s _ => spawnReplacement s) s

/-- Player attack vs one enemy (the body of the melee-collision `forEach`):
dodge roll first, damage only on a failed roll, streak/hitstop on a landed
hit. -/
def meleeBody (pAttack : Rect) (s : GameState) (k : Nat) : GameState :=
  match s.enemies[k]? with
  | none => s
  | some en =>
    if en.state ≠ DEAD ∧ checkCollision pAttack en.getHitbox then
      let (dodged, en, rng) := en.tryDodge s.rng
      let s := { s with enemies := s.enemies.set k en, rng := rng }
      if dodged then s
      else
        let dmg : Rat := if s.player.state = ATTACKING_JAB then 9 else 18
        let (ok, en) := en.takeDamage dmg (s.player.facing : Rat)
        let s := { s with enemies := s.enemies.set k en }
        if ok then { s with hitstopTimer := 8, streak := s.streak + 1 } else s
    else s

/-- The player-melee collision pass (no removal, so a plain index loop). -/
def meleePass (s : GameState) : GameState :=
  match s.player.getAttackHitbox with
  | none => s
  | some pAttack => (List.range s.enemies.length).foldl (meleeBody pAttack) s

/-- Radial special vs one enemy: Euclidean range check (`dist <
specialAttackRadius`, modelled as the exact square comparison), damage 15, no
dodge roll, and — as in the source — no streak change. -/
def specialBody (s : GameState) (k : Nat) : GameState :=
  match s.enemies[k]? with
  | none => s
  | some en =>
    if en.state ≠ DEAD then
      let d2 := (en.x - s.player.x) * (en.x - s.player.x) +
                (en.y - s.player.y) * (en.y - s.player.y)
      if sqrtLt d2 s.player.specialAttackRadius then
        let (_, en) := en.takeDamage 15 (if en.x > s.player.x then 1 else -1)
        { s with enemies := s.enemies.set k en }
      else s
    else s

/-- The player-special collision pass. -/
def specialPass (s : GameState) : GameState :=
  if s.player.specialAttackActive then
    (List.range s.enemies.length).foldl specialBody s
  else s

/-- Enemy melee vs player: damage 6, hitstop 8 and streak reset on a landed
hit. -/
def enemyAttackVsPlayer (en : Enemy) (s : GameState) : GameState :=
  match en.getAttackHitbox with
  | none => s
  | some eAttack =>
    if checkCollision eAttack s.player.getHitbox then
      let (ok, p) := s.player.takeDamage 6 (en.facing : Rat)
      let s := { s with player := p }
      if ok then { s with hitstopTimer := 8, streak := 0 } else s
    else s

/-- Boss blast vs player: range check against the live blast radius, damage 10,
suppressed while the player is dodging; the `takeDamage` result is ignored. -/
def bossBlastVsPlayer (en : Enemy) (s : GameState) : GameState :=
  let d2 := (s.player.x - en.x) * (s.player.x - en.x) +
            (s.player.y - en.y) * (s.player.y - en.y)
  if sqrtLt d2 en.blastRadius ∧ s.player.state ≠ DODGING then
    { s with player := (s.player.takeDamage 10 (if s.player.x > en.x then 1 else -1)).2 }
  else s

/-- Boss projectiles vs player: radius-25 circular check against the player's
anchor 30 px above its feet, damage 15, suppressed while dodging; a hitting
projectile is consumed via `splice` inside a `forEach` (same removal semantics
as `Enemy.projectilesMove`). -/
def bossProjectilesVsPlayer (en : Enemy) (s : GameState) : Enemy × GameState :=
  (List.range en.projectiles.length).foldl
    (fun (acc : Enemy × GameState) j =>
      let (en, s) := acc
      match en.projectiles[j]? with
      | none => (en, s)
      | some p =>
        let d2 := (s.player.x - p.x) * (s.player.x - p.x) +
                  ((s.player.y - 30) - p.y) * ((s.player.y - 30) - p.y)
        if sqrtLt d2 25 ∧ s.player.state ≠ DODGING then
          let (_, pl) := s.player.takeDamage 15 (if p.vx > 0 then 1 else -1)
          ({ en with projectiles := en.projectiles.eraseIdx j }, { s with player := pl })
        else (en, s))
    (en, s)

/-- Reaping a dead enemy whose death animation has elapsed: chaos award, boss
bookkeeping (phase-3 special unlock, phase-5 victory), `splice` removal, and a
replacement spawn when the living population fell below target. -/
def reapStep (k : Nat) (en : Enemy) (s : GameState) : GameState :=
  let s1 : GameState :=
    { s with chaos := s.chaos + (if en.isBoss then 750 else 20 : Nat) * s.multiplier }
  let s2 : GameState :=
    if en.isBoss then
      let sb := { s1 with bossSequenceActive := false }
      if sb.phase = 3 then
        { sb with player := { sb.player with specialUnlocked := true }, isTransitioning := true }
      else if sb.phase = 5 then { sb with isVictory := true }
      else sb
    else s1
  let s3 : GameState := { s2 with enemies := s2.enemies.eraseIdx k }
  let activeCount := (s3.enemies.filter (fun e => e.state ≠ DEAD)).length
  let targetCount : Nat := if s3.phase ≥ 3 then 5 else 3
  if s3.isTransitioning = false ∧ s3.isVictory = false ∧ activeCount < targetCount then
    spawnReplacement s3
  else s3

/-- The body of the enemy `forEach`: AI, physics, melee vs player, boss blast,
boss projectiles, then the reap check (which may `splice` the current index and
push a replacement). -/
def enemyBody (s : GameState) (k : Nat) : GameState :=
  match s.enemies[k]? with
  | none => s
  | some en =>
    let en1 := (en.updateAI (some s.player.toEntity) s.rng).1
    let rng1 := (en.updateAI (some s.player.toEntity) s.rng).2
    let en2 := en1.update (some s.player.toEntity)
    let s1 := { s with enemies := s.enemies.set k en2, rng := rng1 }
    let s2 := enemyAttackVsPlayer en2 s1
    let s3 := if en2.isBoss ∧ en2.blastActive then bossBlastVsPlayer en2 s2 else s2
    let en3 := (bossProjectilesVsPlayer en2 s3).1
    let s4 := (bossProjectilesVsPlayer en2 s3).2
    let s5 := { s4 with enemies := s4.enemies.set k en3 }
    if en3.state = DEAD ∧ en3.stateTimer = 0 then reapStep k en3 s5 else s5

/-- The enemy update loop.  The source iterates the roster with `forEach`
while the reap branch calls `splice(idx, 1)` and may push replacements; per
the ECMAScript `forEach` semantics the element count is captured up front and
each index is visited only while still in bounds, so removing the element at
the current index shifts the next element down — it is skipped this tick —
while pushed replacements occupying a not-yet-visited index are processed. -/
def enemyLoop (s : GameState) : GameState :=
  (List.range s.enemies.length).foldl
    (fun s k => if k < s.enemies.length then enemyBody s k else s) s

/-- Phase progression: once the chaos target for the phase is met, spawn the
phase-3/phase-5 boss or open a transition window. -/
def progressionStep (s : GameState) : GameState :=
  let target := PHASE_TARGETS.getD (s.phase - 1) 99999
  if s.chaos ≥ target ∧ ¬s.bossSpawnedForCurrentPhase ∧ ¬s.isTransitioning then
    if s.phase = 3 then spawnBoss 200 2 s
    else if s.phase = 5 then spawnBoss 500 2.5 s
    else { s with isTransitioning := true }
  else s

/-- Screen transition: with the arena cleared and the player at the right
edge, advance the phase, reposition the player, heal 50 (capped) and respawn. -/
def transitionStep (s : GameState) : GameState :=
  if s.isTransitioning ∧ (s.enemies.filter (fun e => e.state ≠ DEAD)).length = 0 ∧
     s.player.x > 800 - 40 then
    let s := { s with phase := s.phase + 1,
                      player := { s.player with toEntity := { s.player.toEntity with x := 20 } },
                      isTransitioning := false, bossSpawnedForCurrentPhase := false }
    let s := { s with player := { s.player with toEntity :=
                 { s.player.toEntity with hp := min s.player.maxHp (s.player.hp + 50) } } }
    spawnEnemies s
  else s

/-- Ground boundaries for the player in the 800×600 space. -/
def clampPlayer (s : GameState) : GameState :=
  let px := max 20 (min (if s.isTransitioning then 850 else 780) s.player.x)
  let py := max 250 (min 580 s.player.y)
  { s with player := { s.player with toEntity := { s.player.toEntity with x := px, y := py } } }

/-- Everything in `GameEngine.update` after the player-death early return. -/
def finishTick (s : GameState) : GameState :=
  let s := progressionStep s
  let s := transitionStep s
  let s := clampPlayer s
  let s := { s with player := s.player.update }
  let s := meleePass s
  let s := specialPass s
  let s := enemyLoop s
  { s with multiplier := min 10 (1 + s.streak / 5) }

/-- `GameEngine.update`: one simulation tick (rendering and the stats callback
omitted).  Early returns: game over / victory / pause freeze; hitstop
decrement-and-skip; player death. -/
def update (s : GameState) : GameState :=
  if s.isGameOver ∨ s.isVictory ∨ s.isPaused then s
  else if s.hitstopTimer > 0 then { s with hitstopTimer := s.hitstopTimer - 1 }
  else
    let s := { s with player := s.player.handleInput s.keys }
    if s.player.hp ≤ 0 then
      { s with isGameOver := true, player := s.player.setState DEAD }
    else finishTick s

/-- The `GameEngine` constructor's simulation state: player at (100, 450),
phase 1, one initial `spawnEnemies` (which spawns `2 + 1 = 3` enemies). -/
def init (rng : List Rat) : GameState :=
  spawnEnemies { player := Player.new 100 450, enemies := [], keys := {}, rng := rng }

end GameEngine

/-! ### Invariant predicates -/

/-- The per-actor health/state invariant of the specification:
`0 ≤ health ≤ maxHealth` and `health = 0 ↔ state = DEAD`. -/
def ActorInv (e : Entity) : Prop :=
  0 ≤ e.hp ∧ e.hp ≤ e.maxHp ∧ (e.hp = 0 ↔ e.state = DEAD)

instance (e : Entity) : Decidable (ActorInv e) :=
  inferInstanceAs (Decidable (_ ∧ _ ∧ (_ ↔ _)))

/-- Enemy well-formedness: the actor invariant plus the auxiliary fact that the
telegraphed attack type is never `DEAD` (the AI only ever stores
`ATTACKING_JAB`/`ATTACKING_STRAIGHT` there), needed so that resolving a
wind-up cannot fake a death. -/
def EnemyWF (en : Enemy) : Prop := ActorInv en.toEntity ∧ en.nextAttackType ≠ DEAD

instance (en : Enemy) : Decidable (EnemyWF en) :=
  inferInstanceAs (Decidable (ActorInv _ ∧ _ ≠ _))

/-- The whole-session invariant: every actor in the engine state satisfies the
health/state invariant. -/
def StateWF (s : GameState) : Prop :=
  ActorInv s.player.toEntity ∧ ∀ en ∈ s.enemies, EnemyWF en

instance (s : GameState) : Decidable (StateWF s) :=
  inferInstanceAs (Decidable (ActorInv _ ∧ ∀ en ∈ s.enemies, EnemyWF en))

/-! ### Concrete scenario states and traces used by the claim theorems -/

/-- Adjacent-pairs strict-increase check for a list of rationals. -/
def strictIncrB (l : List Rat) : Bool := (l.zip l.tail).all fun q => decide (q.1 < q.2)

/-- `iterList f n a = [a, f a, f (f a), …]` (`n + 1` elements). -/
def iterList (f : α → α) : Nat → α → List α
  | 0, a => [a]
  | n + 1, a => a :: iterList f n (f a)

/-- C3: only the special key pressed. -/
def c3keys : Keys := { keyE := true }

/-- C3: the player on the tick its special is triggered (special unlocked,
cooldown 0, `handleInput` with the special intent). -/
def c3player : Player :=
  Player.handleInput { Player.new 100 450 with specialUnlocked := true } c3keys

/-- C3: the player trace over the 105 ticks following the trigger
(element `t` is the state after `t` update calls). -/
def c3traj : List Player := iterList Player.update 105 c3player

/-- C3: blast radius along the trace. -/
def c3radii : List Rat := c3traj.map fun p => p.specialAttackRadius

/-- C3: the state 45 ticks after the trigger, written out as a checkpoint
literal (proved equal to the 45-fold update of `c3player` in the C3 theorems)
so the second half of the trace can be evaluated from here. -/
def c3active : Player :=
  { toEntity := { x := 100, y := 450, width := 40, height := 60, hp := 100, maxHp := 100,
                  state := IDLE, facing := 1, speed := (11 : Rat)/2, scale := 1,
                  vx := 0, vy := 0, stateTimer := 0, invincibleTimer := 0,
                  currentFrame := 3, animationTick := 9 },
    specialUnlocked := true, specialCooldownTimer := 855, isChargingSpecial := false,
    specialChargeTimer := 0, specialAttackActive := true, specialAttackRadius := 0,
    specialActiveTimer := 60 }

/-- C3: the trace over ticks 45 … 105 (element `k` is tick `45 + k`). -/
def c3traj2 : List Player := iterList Player.update 60 c3active

/-- C3: blast radius over ticks 45 … 105. -/
def c3radii2 : List Rat := c3traj2.map fun p => p.specialAttackRadius

/-- C4: a target whose anchor is at distance 5 from the projectile after its
first movement step (so `ratSqrt` is exact there). -/
def c4target : Entity := Entity.new 10 34 100

/-- C4: a heavy boss carrying one freshly emitted projectile (life 140,
velocity (7, 0)). -/
def c4enemy : Enemy :=
  { toEntity := { x := 0, y := 0, hp := 500, maxHp := 500, scale := 2 },
    isBoss := true,
    projectiles := [{ x := 0, y := 0, vx := 7, vy := 0, life := 140 }] }

/-- C5: a boss in blast-and-projectile range: one projectile sitting exactly on
the player's anchor point. -/
def c5boss : Enemy :=
  { toEntity := { x := 450, y := 400, hp := 500, maxHp := 500, scale := 2, speed := 2 },
    isBoss := true,
    projectiles := [{ x := 400, y := 370, vx := 0, vy := 0, life := 50 }] }

/-- C5: a player mid-special (radius 93.75 growing to 100 this tick). -/
def c5player : Player :=
  { Player.new 400 400 with
      specialUnlocked := true
      specialAttackActive := true
      specialAttackRadius := 93.75
      specialActiveTimer := 30
      specialCooldownTimer := 500 }

/-- C5: engine state with streak 3 in which, during one tick, the special
lands on the boss and a boss projectile hits the player. -/
def c5state : GameState :=
  { player := c5player, enemies := [c5boss], keys := {}, streak := 3, rng := [] }

/-- C7: a dead enemy whose death animation has elapsed (reapable). -/
def c7dead : Enemy :=
  { toEntity := { x := 300, y := 400, hp := 0, maxHp := 30, state := DEAD, speed := 2 } }

/-- C7: a living enemy sitting right after the reapable one in the roster. -/
def c7alive : Enemy :=
  { toEntity := { x := 700, y := 450, hp := 30, maxHp := 30, speed := 2 } }

/-- C7: engine state whose roster is `[reapable, alive]`; the random stream
feeds the replacement spawn triggered by the reap. -/
def c7state : GameState :=
  { player := Player.new 100 450, enemies := [c7dead, c7alive], keys := {},
    rng := [0.4, 0, 0.25] }

/-- C8: an idle, dodge-ready enemy. -/
def c8enemy : Enemy :=
  { toEntity := { x := 100, y := 300, hp := 30, maxHp := 30, speed := 2 } }

/-- C8: a far-away target (irrelevant while dodging — the AI early-returns). -/
def c8target : Entity := Entity.new 700 300 100

/-- C8: the enemy right after a successful dodge roll (0.05 < 0.12). -/
def c8dodged : Enemy := (c8enemy.tryDodge [0.05]).2.1

/-- C8: one engine-ordered enemy round: AI decision then physics/animation. -/
def c8round (en : Enemy) : Enemy :=
  ((en.updateAI (some c8target) []).1).update (some c8target)

/-- C9: a mid-hitstop engine state. -/
def c9state : GameState :=
  { player := Player.new 100 450, enemies := [c7alive], keys := { keyD := true },
    streak := 7, multiplier := 2, hitstopTimer := 5, rng := [0.9] }

/-- C10: the per-tick effect of the engine on one enemy while the player's
special is active, abstracted over the tick's geometry: the special pass
attempts `takeDamage 15` when the enemy is inside the blast radius (`inR`) and
alive, and the enemy loop then runs its update unless the `forEach`-splice
skip dropped it this tick (`proc`).  No other engine code touches the enemy's
invincibility while the special is active (the melee pass needs a player
attack hitbox, which is `none` throughout — see the C10 theorem). -/
def specialHitStep (inR : Bool) (d : Rat) (en : Enemy) : Bool × Enemy :=
  if inR ∧ en.state ≠ DEAD then en.takeDamage 15 d else (false, en)

/-- C10: the trace of special-pass attempts over consecutive ticks; component
one of tick `n` records whether the special damaged the enemy on tick `n`. -/
def specialRun (inR proc : Nat → Bool) (d : Nat → Rat) (tgt : Option Entity)
    (en : Enemy) : Nat → Bool × Enemy
  | 0 =>
    let (h, e1) := specialHitStep (inR 0) (d 0) en
    (h, if proc 0 then e1.update tgt else e1)
  | n + 1 =>
    let prev := (specialRun inR proc d tgt en n).2
    let (h, e1) := specialHitStep (inR (n + 1)) (d (n + 1)) prev
    (h, if proc (n + 1) then e1.update tgt else e1)

/-! ### Helper lemmas about `Entity.setState` -/

theorem setState_state_eq (e : Entity) (s : EntityState) : (e.setState s).state = s := by
  unfold Entity.setState
  split
  · next h => exact h.1
  · rfl

theorem setState_hp (e : Entity) (s : EntityState) : (e.setState s).hp = e.hp := by
  unfold Entity.setState; split <;> rfl

theorem setState_maxHp (e : Entity) (s : EntityState) : (e.setState s).maxHp = e.maxHp := by
  unfold Entity.setState; split <;> rfl

theorem setState_invincibleTimer (e : Entity) (s : EntityState) :
    (e.setState s).invincibleTimer = e.invincibleTimer := by
  unfold Entity.setState; split <;> rfl

theorem setState_stateTimer (e : Entity) (s : EntityState) :
    (e.setState s).stateTimer = e.stateTimer := by
  unfold Entity.setState; split <;> rfl

theorem setState_HIT (e : Entity) :
    e.setState HIT = { e with state := HIT, currentFrame := 0, animationTick := 0 } := by
  unfold Entity.setState
  split
  · next h =>
    obtain ⟨h1, h2⟩ := h
    rw [h1] at h2
    simp [ANIMATION_DATA] at h2
  · rfl

theorem setState_DEAD (e : Entity) :
    e.setState DEAD = { e with state := DEAD, currentFrame := 0, animationTick := 0 } := by
  unfold Entity.setState
  split
  · next h =>
    obtain ⟨h1, h2⟩ := h
    rw [h1] at h2
    simp [ANIMATION_DATA] at h2
  · rfl

/-! ### Claim theorems -/

/-- C2: `takeDamage` called on an invincible or dead actor returns
"not applied" and leaves the actor entirely unchanged; otherwise it returns
"applied", subtracts the amount from health flooring at 0, transitions to
`HIT` (`DEAD` if health reaches 0), sets `stateTimer := 15` and
`invincibleTimer := 30`, and sets the horizontal velocity to
`knockbackDir * 12 / scale`. -/
theorem C2_takeDamage_contract (e : Entity) (amount knockbackDir : Rat) :
    (e.invincibleTimer > 0 ∨ e.state = DEAD →
       e.takeDamage amount knockbackDir = (false, e)) ∧
    (e.invincibleTimer = 0 → e.state ≠ DEAD →
       e.takeDamage amount knockbackDir =
         (true, { e with hp := if e.hp - amount ≤ 0 then 0 else e.hp - amount,
                         state := if e.hp - amount ≤ 0 then DEAD else HIT,
                         stateTimer := 15, invincibleTimer := 30,
                         vx := knockbackDir * (12 / e.scale),
                         currentFrame := 0, animationTick := 0 })) := by
  constructor
  · intro h
    unfold Entity.takeDamage
    rw [if_pos h]
  · intro h1 h2
    unfold Entity.takeDamage
    rw [if_neg (by simp [h1, h2])]
    simp only [setState_HIT, setState_DEAD]
    split
    · next hle => simp [hle]
    · next hle => simp [hle]

/-- C2 witness: at `invincibleTimer = 1` the call is a no-op, and on a fresh
actor a 12-damage hit out of 10 hp floors at 0 and kills. -/
theorem C2_takeDamage_contract_witness :
    (Entity.takeDamage { Entity.new 0 0 10 with invincibleTimer := 1 } 3 1 =
       (false, { Entity.new 0 0 10 with invincibleTimer := 1 })) ∧
    (Entity.takeDamage (Entity.new 0 0 10) 12 1 =
       (true, { Entity.new 0 0 10 with
                  hp := 0
                  state := DEAD
                  stateTimer := 15
                  invincibleTimer := 30
                  vx := 12 })) := by
  constructor
  · exact (C2_takeDamage_contract { Entity.new 0 0 10 with invincibleTimer := 1 } 3 1).1
      (Or.inl (by decide))
  · have h := (C2_takeDamage_contract (Entity.new 0 0 10) 12 1).2 (by decide) (by decide)
    rw [h]
    with_unfolding_all decide

/-- C6: `getAttackHitbox` is non-null exactly when the state's animation
descriptor declares active frames and the current frame is among them; the
only states with active frames are the two attacks — Jab with `[1, 2]` and
Straight with `[2, 3, 4]` — and every other state has none, hence always a
null hitbox. -/
theorem C6_attack_hitbox_active_frames :
    (∀ e : Entity,
       e.getAttackHitbox ≠ none ↔
         ((e.state = ATTACKING_JAB ∧ e.currentFrame ∈ [1, 2]) ∨
          (e.state = ATTACKING_STRAIGHT ∧ e.currentFrame ∈ [2, 3, 4]))) ∧
    (ANIMATION_DATA ATTACKING_JAB).activeFrames = some [1, 2] ∧
    (ANIMATION_DATA ATTACKING_STRAIGHT).activeFrames = some [2, 3, 4] ∧
    (ANIMATION_DATA IDLE).activeFrames = none ∧
    (ANIMATION_DATA WALKING).activeFrames = none ∧
    (ANIMATION_DATA WINDING_UP).activeFrames = none ∧
    (ANIMATION_DATA DODGING).activeFrames = none ∧
    (ANIMATION_DATA HIT).activeFrames = none ∧
    (ANIMATION_DATA DEAD).activeFrames = none := by
  refine ⟨?_, rfl, rfl, rfl, rfl, rfl, rfl, rfl, rfl⟩
  intro e
  unfold Entity.getAttackHitbox
  cases h : e.state <;> simp [ANIMATION_DATA, h] <;> tauto

/-- C3 counterexample: counting ticks from the trigger, `c3active` is the
state at tick 45 (the tick the special becomes Active), and the blast radius
at tick 85 (= 45 + 40) and at tick 86 are both 250 while the special is still
Active — the radius does not strictly increase on every tick of the active
window (which lasts until tick 45 + 60), refuting the claim as stated. -/
theorem C3_radius_plateau_counterexample :
    Nat.iterate Player.update 45 c3player = c3active ∧
    c3radii2[40]? = some 250 ∧ c3radii2[41]? = some 250 ∧
    (c3traj2[41]?.map fun p => p.specialAttackActive) = some true := by
  refine ⟨?_, ?_, ?_, ?_⟩ <;> with_unfolding_all decide

/-- C3 amended: triggered with the special unlocked and cooldown 0, the player
enters Charging for 45 ticks with the 900-tick cooldown armed on the trigger
tick itself; at tick 45 the special becomes Active with radius 0; the radius
then strictly increases each tick until it reaches the 250 maximum at tick
45 + 40, stays at the maximum for the rest of the active window, and at tick
45 + 60 the special returns to Idle with the radius reset to 0. -/
theorem C3_special_lifecycle_amended :
    c3player.isChargingSpecial = true ∧
    c3player.specialCooldownTimer = 900 ∧
    (∀ p ∈ c3traj.take 45, p.isChargingSpecial = true) ∧
    Nat.iterate Player.update 45 c3player = c3active ∧
    (c3active.isChargingSpecial, c3active.specialAttackActive, c3active.specialAttackRadius)
      = (false, true, 0) ∧
    strictIncrB (c3radii2.take 41) = true ∧
    (∀ r ∈ (c3radii2.drop 40).take 20, r = 250) ∧
    (c3traj2[60]?.map fun p =>
       (p.isChargingSpecial, p.specialAttackActive, p.specialAttackRadius, p.state))
      = some (false, false, 0, IDLE) := by
  refine ⟨?_, ?_, ?_, ?_, ?_, ?_, ?_, ?_⟩ <;> with_unfolding_all decide

/-- C9: when a simulation tick runs (not game over, not victory, not paused)
with `hitstopTimer > 0`, the tick only decrements the hitstop counter; every
other component of the engine state — player, enemies, score, streak,
multiplier, phase, flags, random stream — is left untouched, and no input,
AI, physics or collision code runs. -/
theorem C9_hitstop_freeze (s : GameState) (h1 : s.isGameOver = false)
    (h2 : s.isVictory = false) (h3 : s.isPaused = false) (h4 : s.hitstopTimer > 0) :
    GameEngine.update s = { s with hitstopTimer := s.hitstopTimer - 1 } := by
  unfold GameEngine.update
  rw [if_neg (by simp [h1, h2, h3]), if_pos h4]

/-- C9 witness: a concrete mid-hitstop state is frozen except for the hitstop
counter going 5 → 4. -/
theorem C9_hitstop_freeze_witness :
    0 < c9state.hitstopTimer ∧
    GameEngine.update c9state = { c9state with hitstopTimer := 4 } := by
  refine ⟨by decide, ?_⟩
  rw [C9_hitstop_freeze c9state rfl rfl rfl (by decide)]
  with_unfolding_all decide


/-- The body of the projectile `forEach` with no target: move and age only. -/
theorem projectileStep_none (p : Projectile) :
    Enemy.projectileStep none p =
      { p with x := p.x + p.vx, y := p.y + p.vy, life := p.life - 1 } := rfl

/-- The projectile step always ages the projectile by exactly one tick. -/
theorem projectileStep_life (tgt : Option Entity) (p : Projectile) :
    (Enemy.projectileStep tgt p).life = p.life - 1 := by
  cases tgt with
  | none => rfl
  | some t =>
    by_cases h : p.life - 1 > 60 <;> simp [Enemy.projectileStep, h]

/-- The projectile loop on a single projectile: step it, dropping it exactly
when its life has run out. -/
theorem projectilesMove_singleton (tgt : Option Entity) (p : Projectile) :
    Enemy.projectilesMove tgt [p] =
      if p.life ≤ 1 then [] else [Enemy.projectileStep tgt p] := by
  have hstep : Enemy.projectilesMove tgt [p] =
      if (Enemy.projectileStep tgt p).life = 0 then [] else [Enemy.projectileStep tgt p] := by
    unfold Enemy.projectilesMove
    have hr : List.range 1 = [0] := rfl
    simp [hr]
  rw [hstep, projectileStep_life]
  by_cases h : p.life ≤ 1
  · rw [if_pos (by omega), if_pos h]
  · rw [if_neg (by omega), if_neg h]

/-- C4 counterexample: a boss projectile one movement tick into its 140-tick
life — well inside its "first 60 life-ticks" — already has its velocity
modified by homing (7 → 6.99 horizontally, 0 → 0.36 vertically): the source
homes while `life > 60`, i.e. during the FIRST part of the flight, not after
tick 60. -/
theorem C4_projectile_homing_counterexample :
    c4enemy.projectiles = [{ x := 0, y := 0, vx := 7, vy := 0, life := 140 }] ∧
    (c4enemy.update (some c4target)).projectiles =
      [{ x := 7, y := 0, vx := 6.99, vy := 0.36, life := 139 }] ∧
    (6.99 : Rat) ≠ 7 := by
  refine ⟨?_, ?_, ?_⟩ <;> with_unfolding_all decide

/-- C4 amended: every boss projectile is emitted with a life of 140 ticks;
while its remaining life after the per-tick decrement still exceeds 60 — that
is, during its first 79 movement ticks — its velocity is decayed by 0.96 per
tick and pulled toward the live target position (homing), so its velocity
differs from its initial velocity already on tick 1 of its life (see the
counterexample) and hence also at tick 61; it flies straight (velocity
unmodified) exactly during its final 60 life-ticks; and it is removed once its
140-tick lifetime elapses or it hits the player. -/
theorem C4_projectile_lifecycle_amended :
    (∀ (en : Enemy) (tgt : Entity), (en.spawnProjectile tgt).life = 140) ∧
    (∀ (tgt : Option Entity) (p : Projectile), p.life ≤ 61 →
       (Enemy.projectileStep tgt p).vx = p.vx ∧ (Enemy.projectileStep tgt p).vy = p.vy) ∧
    (∀ (t : Entity) (p : Projectile), 61 < p.life →
       Enemy.projectileStep (some t) p =
         (let tx := t.x - (p.x + p.vx)
          let ty := (t.y - 30) - (p.y + p.vy)
          let dist := ratSqrt (tx * tx + ty * ty)
          { x := p.x + p.vx, y := p.y + p.vy,
            vx := p.vx * 0.96 + tx / dist * 0.45,
            vy := p.vy * 0.96 + ty / dist * 0.45,
            life := p.life - 1 })) ∧
    (∀ (tgt : Option Entity) (p : Projectile),
       Enemy.projectilesMove tgt [p] =
         if p.life ≤ 1 then [] else [Enemy.projectileStep tgt p]) ∧
    (∀ (en : Enemy) (s : GameState) (p : Projectile), en.projectiles = [p] →
       sqrtLt ((s.player.x - p.x) * (s.player.x - p.x) +
               ((s.player.y - 30) - p.y) * ((s.player.y - 30) - p.y)) 25 →
       s.player.state ≠ DODGING →
       (GameEngine.bossProjectilesVsPlayer en s).1.projectiles = []) := by
  refine ⟨fun en tgt => rfl, ?_, ?_, projectilesMove_singleton, ?_⟩
  · intro tgt p hle
    cases tgt with
    | none => exact ⟨rfl, rfl⟩
    | some t =>
      have hgt : ¬(p.life - 1 > 60) := by omega
      simp [Enemy.projectileStep, hgt]
  · intro t p hgt
    unfold Enemy.projectileStep
    have h : p.life - 1 > 60 := by omega
    simp only [h]
    rfl
  · intro en s p hp hlt hnd
    unfold GameEngine.bossProjectilesVsPlayer
    have hr : List.range 1 = [0] := rfl
    simp [hp, hlt, hnd, hr]


/-- C4 witness: the amended lifecycle evaluated at concrete projectiles —
emission life 140; straight flight at remaining life 50; the homing formula on
the first movement tick of a fresh projectile; expiry removal; and removal on
a player hit. -/
theorem C4_projectile_lifecycle_amended_witness :
    (Enemy.spawnProjectile c4enemy c4target).life = 140 ∧
    (Enemy.projectileStep (some c4target) { x := 0, y := 0, vx := 7, vy := 0, life := 50 }).vx = 7 ∧
    Enemy.projectileStep (some c4target) { x := 0, y := 0, vx := 7, vy := 0, life := 140 } =
      { x := 7, y := 0, vx := 6.99, vy := 0.36, life := 139 } ∧
    Enemy.projectilesMove none [{ x := 0, y := 0, vx := 1, vy := 0, life := 1 }] = [] ∧
    (GameEngine.bossProjectilesVsPlayer c5boss c5state).1.projectiles = [] := by
  refine ⟨C4_projectile_lifecycle_amended.1 c4enemy c4target, ?_, ?_, ?_, ?_⟩
  · exact (C4_projectile_lifecycle_amended.2.1 (some c4target)
      { x := 0, y := 0, vx := 7, vy := 0, life := 50 } (by decide)).1
  · have h := C4_projectile_lifecycle_amended.2.2.1 c4target
      { x := 0, y := 0, vx := 7, vy := 0, life := 140 } (by decide)
    rw [h]
    with_unfolding_all decide
  · have h := C4_projectile_lifecycle_amended.2.2.2.1 none
      { x := 0, y := 0, vx := 1, vy := 0, life := 1 }
    rw [h]
    with_unfolding_all decide
  · exact C4_projectile_lifecycle_amended.2.2.2.2 c5boss c5state
      { x := 400, y := 370, vx := 0, vy := 0, life := 50 } rfl
      (by with_unfolding_all decide) (by with_unfolding_all decide)

/-- C8 counterexample: a successful dodge roll (0.05 < 0.12) puts the enemy in
`DODGING`, but 20 engine rounds later — not 25 — the enemy is already back to
`IDLE`: the 4-frame dodge animation at 5 ticks per frame auto-returns to idle
after 20 ticks, so the enemy is not in the Dodging state for the next 25
ticks as claimed. -/
theorem C8_dodge_duration_counterexample :
    (c8enemy.tryDodge [0.05]).1 = true ∧
    c8dodged.state = DODGING ∧
    (Nat.iterate c8round 20 c8dodged).state = IDLE := by
  refine ⟨?_, ?_, ?_⟩ <;> with_unfolding_all decide

/-- C8 amended: `tryDodge` can succeed only when the enemy is not already
Dodging, not Dead, and its dodge cooldown is 0; the roll succeeds exactly when
the random draw is below 0.12 (0.35 for bosses); on success the enemy enters
`DODGING` with `stateTimer` 25, a 25-tick invincibility window and a 120-tick
dodge cooldown, but the Dodging state itself auto-returns to Idle after 20
ticks (4 animation frames at 5 ticks per frame) — for an undisturbed enemy it
is still Dodging at round 19 and Idle at round 20, with 5 ticks of
invincibility left; a blocked call or failed roll returns false and changes
nothing. -/
theorem C8_tryDodge_amended (en : Enemy) (r : Rat) (rest : List Rat) :
    (en.dodgeCooldown > 0 ∨ en.state = DEAD ∨ en.state = DODGING →
       ∀ rng, en.tryDodge rng = (false, en, rng)) ∧
    (en.dodgeCooldown = 0 → en.state ≠ DEAD → en.state ≠ DODGING →
       r < (if en.isBoss then 0.35 else 0.12) →
       en.tryDodge (r :: rest) =
         (true, { en.setState DODGING with
                    toEntity := { (en.setState DODGING).toEntity with
                                    stateTimer := 25, invincibleTimer := 25 },
                    dodgeCooldown := 120 }, rest)) ∧
    (en.dodgeCooldown = 0 → en.state ≠ DEAD → en.state ≠ DODGING →
       ¬ r < (if en.isBoss then 0.35 else 0.12) →
       en.tryDodge (r :: rest) = (false, en, rest)) ∧
    ((Nat.iterate c8round 19 c8dodged).state = DODGING ∧
     (Nat.iterate c8round 20 c8dodged).state = IDLE ∧
     (Nat.iterate c8round 20 c8dodged).invincibleTimer = 5 ∧
     c8dodged.stateTimer = 25 ∧ c8dodged.invincibleTimer = 25 ∧
     c8dodged.dodgeCooldown = 120) := by
  refine ⟨?_, ?_, ?_, ?_⟩
  · intro h rng
    unfold Enemy.tryDodge
    rw [if_pos h]
  · intro h1 h2 h3 h4
    unfold Enemy.tryDodge
    rw [if_neg (by simp [h1, h2, h3])]
    simp only [randPop]
    rw [if_pos h4]
  · intro h1 h2 h3 h4
    unfold Enemy.tryDodge
    rw [if_neg (by simp [h1, h2, h3])]
    simp only [randPop]
    rw [if_neg h4]
  · exact ⟨by with_unfolding_all decide, by with_unfolding_all decide,
      by with_unfolding_all decide, by with_unfolding_all decide,
      by with_unfolding_all decide, by with_unfolding_all decide⟩

/-- C8 witness: the amended contract evaluated concretely — cooldown-blocked
call, successful 0.05-roll, and failed 0.5-roll. -/
theorem C8_tryDodge_amended_witness :
    (Enemy.tryDodge { c8enemy with dodgeCooldown := 50 } [0.9] =
       (false, { c8enemy with dodgeCooldown := 50 }, [0.9])) ∧
    ((c8enemy.tryDodge [0.05]).1 = true ∧ (c8enemy.tryDodge [0.05]).2.2 = []) ∧
    (c8enemy.tryDodge [0.5, 0.3] = (false, c8enemy, [0.3])) := by
  refine ⟨?_, ?_, ?_⟩
  · exact (C8_tryDodge_amended { c8enemy with dodgeCooldown := 50 } 0 []).1
      (Or.inl (by decide)) [0.9]
  · have h := (C8_tryDodge_amended c8enemy 0.05 []).2.1 rfl (by decide) (by decide)
      (by with_unfolding_all decide)
    exact ⟨by rw [h], by rw [h]⟩
  · exact (C8_tryDodge_amended c8enemy 0.5 [0.3]).2.2.1 rfl (by decide) (by decide)
      (by with_unfolding_all decide)



/-- Folding a streak-preserving body preserves the streak. -/
theorem foldl_streak_eq (f : GameState → Nat → GameState)
    (hf : ∀ s k, (f s k).streak = s.streak) :
    ∀ (l : List Nat) (s : GameState), (l.foldl f s).streak = s.streak := by
  intro l
  induction l with
  | nil => intro s; rfl
  | cons a t ih => intro s; rw [List.foldl_cons, ih, hf]

/-- Folding a streak-preserving body over enemy/state pairs preserves the
streak. -/
theorem foldl_pair_streak_eq (f : Enemy × GameState → Nat → Enemy × GameState)
    (hf : ∀ a k, (f a k).2.streak = a.2.streak) :
    ∀ (l : List Nat) (a : Enemy × GameState), (l.foldl f a).2.streak = a.2.streak := by
  intro l
  induction l with
  | nil => intro a; rfl
  | cons x t ih => intro a; rw [List.foldl_cons, ih, hf]

/-- Folding a streak-monotone body can only grow the streak. -/
theorem foldl_streak_le (f : GameState → Nat → GameState)
    (hf : ∀ s k, s.streak ≤ (f s k).streak) :
    ∀ (l : List Nat) (s : GameState), s.streak ≤ (l.foldl f s).streak := by
  intro l
  induction l with
  | nil => intro s; exact Nat.le_refl _
  | cons a t ih => intro s; exact Nat.le_trans (hf s a) (ih (f s a))

/-- The special-pass body never changes the streak. -/
theorem specialBody_streak (s : GameState) (k : Nat) :
    (GameEngine.specialBody s k).streak = s.streak := by
  unfold GameEngine.specialBody
  cases h : s.enemies[k]? with
  | none => rfl
  | some en =>
    dsimp only
    split
    · split
      · rfl
      · rfl
    · rfl

/-- The melee-pass body can only keep or increment the streak. -/
theorem meleeBody_streak_le (pAttack : Rect) (s : GameState) (k : Nat) :
    s.streak ≤ (GameEngine.meleeBody pAttack s k).streak := by
  unfold GameEngine.meleeBody
  cases h : s.enemies[k]? with
  | none => exact Nat.le_refl _
  | some en =>
    dsimp only
    repeat' split
    all_goals first
      | exact Nat.le_succ _
      | exact Nat.le_refl _

/-- C7: the reap `splice` inside the roster `forEach` skips the next entry.
With the roster `[reapable corpse, living enemy]`, one engine tick reaps the
corpse (shifting the living enemy to index 0, already behind the cursor) and
then processes index 1 — which now holds the replacement pushed by the reap —
so the living enemy `c7alive` is returned entirely untouched: it received no
AI step, no physics/animation update (its `animationTick` is still 0) and no
collision processing this tick, while the just-spawned replacement was
processed (its `aiTick` is already 1). -/
theorem C7_forEach_splice_skips :
    c7state.enemies = [c7dead, c7alive] ∧
    c7dead.state = DEAD ∧ c7dead.stateTimer = 0 ∧ c7alive.state ≠ DEAD ∧
    (GameEngine.update c7state).enemies.length = 2 ∧
    (GameEngine.update c7state).enemies[0]? = some c7alive ∧
    ((GameEngine.update c7state).enemies[1]?.map fun e => e.aiTick) = some 1 := by
  refine ⟨rfl, rfl, rfl, by decide, ?_, ?_, ?_⟩ <;> with_unfolding_all decide

/-- C5 counterexample: in one engine tick from `c5state` (streak 3), the
player's special lands on the boss (its hp drops 500 → 485) and a boss
projectile hits the player (hp 100 → 85, projectile consumed), yet the streak
is still 3 afterwards — neither incremented by the special hit landed nor
reset by the projectile hit taken. -/
theorem C5_streak_counterexample :
    c5state.streak = 3 ∧
    (GameEngine.update c5state).streak = 3 ∧
    ((GameEngine.update c5state).enemies[0]?.map fun e => (e.hp, e.projectiles.length))
      = some (485, 0) ∧
    (GameEngine.update c5state).player.hp = 85 := by
  refine ⟨rfl, ?_, ?_, ?_⟩ <;> with_unfolding_all decide

/-- C5 amended: the combo streak is reset to 0 only by enemy melee hits the
player takes, and incremented only by the player's jab/straight melee hits —
the special-area pass, the boss blast check and the boss projectile check
never modify the streak, and the enemy melee check either zeroes it or leaves
it unchanged. -/
theorem C5_streak_sources_amended :
    (∀ s : GameState, (GameEngine.specialPass s).streak = s.streak) ∧
    (∀ (en : Enemy) (s : GameState), (GameEngine.bossBlastVsPlayer en s).streak = s.streak) ∧
    (∀ (en : Enemy) (s : GameState),
       (GameEngine.bossProjectilesVsPlayer en s).2.streak = s.streak) ∧
    (∀ s : GameState, s.streak ≤ (GameEngine.meleePass s).streak) ∧
    (∀ (en : Enemy) (s : GameState),
       (GameEngine.enemyAttackVsPlayer en s).streak = 0 ∨
       (GameEngine.enemyAttackVsPlayer en s).streak = s.streak) := by
  refine ⟨?_, ?_, ?_, ?_, ?_⟩
  · intro s
    unfold GameEngine.specialPass
    split
    · exact foldl_streak_eq _ specialBody_streak _ s
    · rfl
  · intro en s
    unfold GameEngine.bossBlastVsPlayer
    dsimp only
    split
    · rfl
    · rfl
  · intro en s
    unfold GameEngine.bossProjectilesVsPlayer
    refine foldl_pair_streak_eq _ ?_ _ (en, s)
    intro a j
    dsimp only
    cases h : a.1.projectiles[j]? with
    | none => rfl
    | some p =>
      dsimp only
      split
      · rfl
      · rfl
  · intro s
    unfold GameEngine.meleePass
    cases h : s.player.getAttackHitbox with
    | none => exact Nat.le_refl _
    | some pAttack => exact foldl_streak_le _ (meleeBody_streak_le pAttack) _ s
  · intro en s
    unfold GameEngine.enemyAttackVsPlayer
    cases h : en.getAttackHitbox with
    | none => exact Or.inr rfl
    | some eAttack =>
      dsimp only
      split
      · split
        · exact Or.inl rfl
        · exact Or.inr rfl
      · exact Or.inr rfl



/-- `Entity.invDecay` decrements the invincibility window by one, flooring at 0. -/
theorem invDecay_invincibleTimer (e : Entity) :
    (Entity.invDecay e).invincibleTimer = e.invincibleTimer - 1 := by
  unfold Entity.invDecay
  split
  · rfl
  · next h => omega

/-- `Entity.physics` does not touch the invincibility window. -/
theorem physics_invincibleTimer (e : Entity) :
    (Entity.physics e).invincibleTimer = e.invincibleTimer := rfl

/-- `Entity.animAdvance` does not touch the invincibility window. -/
theorem animAdvance_invincibleTimer (e : Entity) :
    (Entity.animAdvance e).invincibleTimer = e.invincibleTimer := by
  unfold Entity.animAdvance
  dsimp only
  repeat' split
  all_goals simp [setState_invincibleTimer]

/-- `Entity.stateTimerStep` does not touch the invincibility window. -/
theorem stateTimerStep_invincibleTimer (e : Entity) :
    (Entity.stateTimerStep e).invincibleTimer = e.invincibleTimer := by
  unfold Entity.stateTimerStep
  dsimp only
  repeat' split
  all_goals simp [setState_invincibleTimer]

/-- `Entity.update` decrements the invincibility window by exactly one tick
(flooring at 0). -/
theorem Entity_update_invincibleTimer (e : Entity) :
    (Entity.update e).invincibleTimer = e.invincibleTimer - 1 := by
  unfold Entity.update
  rw [stateTimerStep_invincibleTimer, animAdvance_invincibleTimer,
    physics_invincibleTimer, invDecay_invincibleTimer]

/-- None of the pre-physics stages of `Enemy.update` touches the invincibility
window, so the whole enemy update decrements it by exactly one tick. -/
theorem Enemy_update_invincibleTimer (en : Enemy) (tgt : Option Entity) :
    (Enemy.update en tgt).invincibleTimer = en.invincibleTimer - 1 := by
  have h1 : ∀ e : Enemy, (Enemy.dodgeCooldownStep e).invincibleTimer = e.invincibleTimer := by
    intro e; unfold Enemy.dodgeCooldownStep; split <;> rfl
  have h2 : ∀ e : Enemy, (Enemy.dodgeMoveStep e).invincibleTimer = e.invincibleTimer := by
    intro e; unfold Enemy.dodgeMoveStep; split <;> rfl
  have h3 : ∀ e : Enemy, (Enemy.windupStep e).invincibleTimer = e.invincibleTimer := by
    intro e; unfold Enemy.windupStep
    repeat' split
    all_goals simp [Enemy.setState, setState_invincibleTimer]
  have h4 : ∀ e : Enemy, (Enemy.blastChargeStep e).invincibleTimer = e.invincibleTimer := by
    intro e; unfold Enemy.blastChargeStep
    repeat' split
    all_goals rfl
  have h5 : ∀ e : Enemy, (Enemy.blastActiveStep e).invincibleTimer = e.invincibleTimer := by
    intro e; unfold Enemy.blastActiveStep
    repeat' split
    all_goals rfl
  have h6 : ∀ e : Enemy, (Enemy.blastCooldownStep e).invincibleTimer = e.invincibleTimer := by
    intro e; unfold Enemy.blastCooldownStep; split <;> rfl
  have hE : ∀ e : Enemy, (Enemy.castEmit tgt e).invincibleTimer = e.invincibleTimer := by
    intro e; unfold Enemy.castEmit
    repeat' split
    all_goals rfl
  have h7 : ∀ e : Enemy, (Enemy.castStep tgt e).invincibleTimer = e.invincibleTimer := by
    intro e; unfold Enemy.castStep
    repeat' split
    all_goals simp [hE]
  have h8 : ∀ e : Enemy, (Enemy.projectileCooldownStep e).invincibleTimer = e.invincibleTimer := by
    intro e; unfold Enemy.projectileCooldownStep; split <;> rfl
  unfold Enemy.update
  rw [Entity_update_invincibleTimer, h8, h7, h6, h5, h4, h3, h2, h1]

/-- `Enemy.takeDamage` unpacked as the inherited `Entity.takeDamage` on the
entity part. -/
theorem Enemy_takeDamage_def (en : Enemy) (a d : Rat) :
    en.takeDamage a d =
      ((en.toEntity.takeDamage a d).1,
       { en with toEntity := (en.toEntity.takeDamage a d).2 }) := by
  unfold Enemy.takeDamage
  rcases h : en.toEntity.takeDamage a d with ⟨ok, e⟩
  simp [h]

/-- A successful `takeDamage` can only happen with the invincibility window
closed and the actor alive, and it re-arms the window to 30 ticks. -/
theorem takeDamage_success (e : Entity) (a d : Rat) :
    (e.takeDamage a d).1 = true →
      e.invincibleTimer = 0 ∧ e.state ≠ DEAD ∧ (e.takeDamage a d).2.invincibleTimer = 30 := by
  intro h
  unfold Entity.takeDamage at h ⊢
  split at h
  · exact absurd h (by simp)
  · next hg =>
    push_neg at hg
    refine ⟨by omega, hg.2, ?_⟩
    rw [if_neg (by push_neg; exact hg)]
    dsimp only
    split
    · simp [setState_invincibleTimer]
    · rfl

/-- A failed `takeDamage` leaves the actor untouched. -/
theorem takeDamage_fail (e : Entity) (a d : Rat) :
    (e.takeDamage a d).1 = false → (e.takeDamage a d).2 = e := by
  intro h
  unfold Entity.takeDamage at h ⊢
  split at h
  · next hg => rw [if_pos hg]
  · dsimp only at h
    split at h <;> simp at h

/-- `specialHitStep` bookkeeping: a hit needs the enemy's invincibility window
closed and re-arms it to 30; a non-hit leaves the enemy unchanged. -/
theorem specialHitStep_cases (inR : Bool) (d : Rat) (en : Enemy) :
    ((specialHitStep inR d en).1 = true →
       en.invincibleTimer = 0 ∧ (specialHitStep inR d en).2.invincibleTimer = 30) ∧
    ((specialHitStep inR d en).1 = false → (specialHitStep inR d en).2 = en) := by
  unfold specialHitStep
  split
  · rw [Enemy_takeDamage_def]
    constructor
    · intro h
      have hs := takeDamage_success en.toEntity 15 d h
      exact ⟨hs.1, hs.2.2⟩
    · intro h
      have hf := takeDamage_fail en.toEntity 15 d h
      show { en with toEntity := (en.toEntity.takeDamage 15 d).2 } = en
      rw [hf]
  · exact ⟨fun h => by simp at h, fun _ => rfl⟩


/-- Unfolding one tick of the special-damage trace. -/
theorem specialRun_succ (inR proc : Nat → Bool) (d : Nat → Rat) (tgt : Option Entity)
    (en : Enemy) (n : Nat) :
    specialRun inR proc d tgt en (n + 1) =
      ((specialHitStep (inR (n + 1)) (d (n + 1)) (specialRun inR proc d tgt en n).2).1,
       if proc (n + 1) then
         ((specialHitStep (inR (n + 1)) (d (n + 1)) (specialRun inR proc d tgt en n).2).2).update tgt
       else (specialHitStep (inR (n + 1)) (d (n + 1)) (specialRun inR proc d tgt en n).2).2) := by
  rw [specialRun]

/-- Unfolding tick 0 of the special-damage trace. -/
theorem specialRun_zero (inR proc : Nat → Bool) (d : Nat → Rat) (tgt : Option Entity)
    (en : Enemy) :
    specialRun inR proc d tgt en 0 =
      ((specialHitStep (inR 0) (d 0) en).1,
       if proc 0 then ((specialHitStep (inR 0) (d 0) en).2).update tgt
       else (specialHitStep (inR 0) (d 0) en).2) := by
  rw [specialRun]

/-- Hit flag of tick `n + 1`. -/
theorem specialRun_succ_fst (inR proc : Nat → Bool) (d : Nat → Rat) (tgt : Option Entity)
    (en : Enemy) (n : Nat) :
    (specialRun inR proc d tgt en (n + 1)).1 =
      (specialHitStep (inR (n + 1)) (d (n + 1)) (specialRun inR proc d tgt en n).2).1 := by
  rw [specialRun_succ]

/-- Enemy state at the end of tick `n + 1`. -/
theorem specialRun_succ_snd (inR proc : Nat → Bool) (d : Nat → Rat) (tgt : Option Entity)
    (en : Enemy) (n : Nat) :
    (specialRun inR proc d tgt en (n + 1)).2 =
      (if proc (n + 1) then
         ((specialHitStep (inR (n + 1)) (d (n + 1)) (specialRun inR proc d tgt en n).2).2).update tgt
       else (specialHitStep (inR (n + 1)) (d (n + 1)) (specialRun inR proc d tgt en n).2).2) := by
  rw [specialRun_succ]

/-- Hit flag of tick 0. -/
theorem specialRun_zero_fst (inR proc : Nat → Bool) (d : Nat → Rat) (tgt : Option Entity)
    (en : Enemy) :
    (specialRun inR proc d tgt en 0).1 = (specialHitStep (inR 0) (d 0) en).1 := by
  rw [specialRun_zero]

/-- Enemy state at the end of tick 0. -/
theorem specialRun_zero_snd (inR proc : Nat → Bool) (d : Nat → Rat) (tgt : Option Entity)
    (en : Enemy) :
    (specialRun inR proc d tgt en 0).2 =
      (if proc 0 then ((specialHitStep (inR 0) (d 0) en).2).update tgt
       else (specialHitStep (inR 0) (d 0) en).2) := by
  rw [specialRun_zero]

/-- Per-tick accounting of the enemy's invincibility window along the trace:
a hit requires the window closed beforehand and leaves at least 29 ticks of it
afterwards, and in any case the window shrinks by at most one per tick. -/
theorem specialTick_inv (inR proc : Bool) (d : Rat) (tgt : Option Entity) (en0 : Enemy) :
    ((specialHitStep inR d en0).1 = true → en0.invincibleTimer = 0 ∧
       29 ≤ (if proc then ((specialHitStep inR d en0).2).update tgt
             else (specialHitStep inR d en0).2).invincibleTimer) ∧
    en0.invincibleTimer - 1 ≤
      (if proc then ((specialHitStep inR d en0).2).update tgt
       else (specialHitStep inR d en0).2).invincibleTimer := by
  cases hb : (specialHitStep inR d en0).1 with
  | true =>
    obtain ⟨hz, h30⟩ := (specialHitStep_cases inR d en0).1 hb
    cases proc with
    | true =>
      rw [if_pos rfl]
      rw [Enemy_update_invincibleTimer, h30]
      exact ⟨fun _ => ⟨hz, by omega⟩, by omega⟩
    | false =>
      rw [if_neg (by simp), h30]
      exact ⟨fun _ => ⟨hz, by omega⟩, by omega⟩
  | false =>
    have heq := (specialHitStep_cases inR d en0).2 hb
    cases proc with
    | true =>
      rw [if_pos rfl, heq, Enemy_update_invincibleTimer]
      exact ⟨fun h => by simp [hb] at h, by omega⟩
    | false =>
      rw [if_neg (by simp), heq]
      exact ⟨fun h => by simp [hb] at h, by omega⟩

/-- A hit on tick `n` leaves at least 29 ticks of invincibility at the end of
tick `n`. -/
theorem specialRun_hit_inv (inR proc : Nat → Bool) (d : Nat → Rat) (tgt : Option Entity)
    (en : Enemy) (n : Nat) :
    (specialRun inR proc d tgt en n).1 = true →
    29 ≤ (specialRun inR proc d tgt en n).2.invincibleTimer := by
  intro h
  cases n with
  | zero =>
    rw [specialRun_zero_fst] at h
    rw [specialRun_zero_snd]
    exact ((specialTick_inv (inR 0) (proc 0) (d 0) tgt en).1 h).2
  | succ m =>
    rw [specialRun_succ_fst] at h
    rw [specialRun_succ_snd]
    exact ((specialTick_inv (inR (m + 1)) (proc (m + 1)) (d (m + 1)) tgt
      (specialRun inR proc d tgt en m).2).1 h).2

/-- A hit on tick `n + 1` requires the window to be fully closed at the end of
tick `n`. -/
theorem specialRun_hit_requires (inR proc : Nat → Bool) (d : Nat → Rat) (tgt : Option Entity)
    (en : Enemy) (n : Nat) :
    (specialRun inR proc d tgt en (n + 1)).1 = true →
    (specialRun inR proc d tgt en n).2.invincibleTimer = 0 := by
  intro h
  rw [specialRun_succ_fst] at h
  exact ((specialTick_inv (inR (n + 1)) (proc (n + 1)) (d (n + 1)) tgt
    (specialRun inR proc d tgt en n).2).1 h).1

/-- The invincibility window decays by at most one per tick along the trace. -/
theorem specialRun_inv_step (inR proc : Nat → Bool) (d : Nat → Rat) (tgt : Option Entity)
    (en : Enemy) (n : Nat) :
    (specialRun inR proc d tgt en n).2.invincibleTimer ≤
      (specialRun inR proc d tgt en (n + 1)).2.invincibleTimer + 1 := by
  have h := (specialTick_inv (inR (n + 1)) (proc (n + 1)) (d (n + 1)) tgt
    (specialRun inR proc d tgt en n).2).2
  rw [specialRun_succ_snd]
  omega

/-- The invincibility window decays by at most `k` over `k` ticks. -/
theorem specialRun_inv_many (inR proc : Nat → Bool) (d : Nat → Rat) (tgt : Option Entity)
    (en : Enemy) (n : Nat) : ∀ k : Nat,
    (specialRun inR proc d tgt en n).2.invincibleTimer ≤
      (specialRun inR proc d tgt en (n + k)).2.invincibleTimer + k := by
  intro k
  induction k with
  | zero => simp
  | succ m ih =>
    have h := specialRun_inv_step inR proc d tgt en (n + m)
    have heq : n + (m + 1) = (n + m) + 1 := by omega
    rw [heq]
    omega

/-- The player cannot reach an attacking state while its special is charging
or active (`handleInput` rejects all intents then, and the entity update only
ever auto-transitions toward `IDLE`). -/
theorem Player_update_toEntity (p : Player) :
    (Player.update p).toEntity = p.toEntity.update := by
  unfold Player.update
  dsimp only
  repeat' split
  all_goals rfl

/-- `Entity.invDecay` preserves the animation state. -/
theorem invDecay_state (e : Entity) : (Entity.invDecay e).state = e.state := by
  unfold Entity.invDecay; split <;> rfl

/-- `Entity.physics` preserves the animation state. -/
theorem physics_state (e : Entity) : (Entity.physics e).state = e.state := rfl

/-- `Entity.animAdvance` keeps the state or auto-returns to `IDLE`. -/
theorem animAdvance_state (e : Entity) :
    (Entity.animAdvance e).state = e.state ∨ (Entity.animAdvance e).state = IDLE := by
  unfold Entity.animAdvance
  dsimp only
  repeat' split
  all_goals simp [setState_state_eq]

/-- `Entity.stateTimerStep` keeps the state or auto-returns to `IDLE`. -/
theorem stateTimerStep_state (e : Entity) :
    (Entity.stateTimerStep e).state = e.state ∨ (Entity.stateTimerStep e).state = IDLE := by
  unfold Entity.stateTimerStep
  dsimp only
  repeat' split
  all_goals simp [setState_state_eq]

/-- `Entity.update` keeps the state or auto-returns to `IDLE`. -/
theorem Entity_update_state (e : Entity) :
    (Entity.update e).state = e.state ∨ (Entity.update e).state = IDLE := by
  unfold Entity.update
  rcases stateTimerStep_state (Entity.animAdvance (Entity.physics (Entity.invDecay e))) with h | h
  · rw [h]
    rcases animAdvance_state (Entity.physics (Entity.invDecay e)) with h2 | h2
    · rw [h2, physics_state, invDecay_state]
      exact Or.inl rfl
    · rw [h2]; exact Or.inr rfl
  · rw [h]; exact Or.inr rfl

/-- `handleInput` is a no-op while the special is charging or active. -/
theorem handleInput_special_noop (p : Player) (keys : Keys) :
    p.isChargingSpecial = true ∨ p.specialAttackActive = true →
    p.handleInput keys = p := by
  intro h
  unfold Player.handleInput
  rw [if_pos (by rcases h with h | h <;> simp [h])]

/-- An entity that is not mid-attack offers no attack hitbox. -/
theorem getAttackHitbox_none (e : Entity) (h1 : e.state ≠ ATTACKING_JAB)
    (h2 : e.state ≠ ATTACKING_STRAIGHT) : e.getAttackHitbox = none := by
  unfold Entity.getAttackHitbox
  cases h : e.state
  all_goals first
    | (rw [h] at h1; exact absurd rfl h1)
    | (rw [h] at h2; exact absurd rfl h2)
    | simp [ANIMATION_DATA]

/-- With no player attack hitbox the melee pass is a no-op. -/
theorem meleePass_noop (s : GameState) (h : s.player.getAttackHitbox = none) :
    GameEngine.meleePass s = s := by
  unfold GameEngine.meleePass
  rw [h]

/-- C10: the special damages any single enemy at most once in any 30
consecutive ticks.  `specialRun` models exactly what one engine tick does to
one enemy while the special is active: the special pass attempts
`takeDamage 15` (blocked by invincibility), then the enemy loop runs the
enemy's update (skippable by the reap-splice quirk), decrementing the window
by at most 1; nothing else touches that enemy's invincibility then, because
the melee pass — the only other writer, via `tryDodge` — requires a player
attack hitbox, and the player cannot be in an attacking state while its
special is active (conjuncts 2–4: `handleInput` is a no-op then, the entity
update only drifts toward `IDLE`, a non-attacking player has no attack
hitbox, and without one the melee pass is the identity).  Hence two successful
special damages on the same enemy are at least 30 ticks apart. -/
theorem C10_special_damage_separation :
    (∀ (inR proc : Nat → Bool) (d : Nat → Rat) (tgt : Option Entity) (en : Enemy)
       (t1 t2 : Nat),
       (specialRun inR proc d tgt en t1).1 = true →
       (specialRun inR proc d tgt en t2).1 = true →
       t1 < t2 → t1 + 30 ≤ t2) ∧
    (∀ (p : Player) (keys : Keys), p.specialAttackActive = true →
       p.state ≠ ATTACKING_JAB → p.state ≠ ATTACKING_STRAIGHT →
       ((p.handleInput keys).update).state ≠ ATTACKING_JAB ∧
       ((p.handleInput keys).update).state ≠ ATTACKING_STRAIGHT) ∧
    (∀ p : Player, p.state ≠ ATTACKING_JAB → p.state ≠ ATTACKING_STRAIGHT →
       p.getAttackHitbox = none) ∧
    (∀ s : GameState, s.player.getAttackHitbox = none → GameEngine.meleePass s = s) := by
  refine ⟨?_, ?_, ?_, meleePass_noop⟩
  · intro inR proc d tgt en t1 t2 h1 h2 hlt
    obtain ⟨k, rfl⟩ : ∃ k, t2 = t1 + k + 1 := ⟨t2 - t1 - 1, by omega⟩
    have hhigh := specialRun_hit_inv inR proc d tgt en t1 h1
    have hmany := specialRun_inv_many inR proc d tgt en t1 k
    have hzero := specialRun_hit_requires inR proc d tgt en (t1 + k) h2
    omega
  · intro p keys hact h1 h2
    rw [handleInput_special_noop p keys (Or.inr hact)]
    have hte := Player_update_toEntity p
    have hst : (Player.update p).state = p.state ∨ (Player.update p).state = IDLE := by
      show (Player.update p).toEntity.state = _ ∨ (Player.update p).toEntity.state = _
      rw [hte]
      exact Entity_update_state p.toEntity
    rcases hst with h | h <;> rw [h]
    · exact ⟨h1, h2⟩
    · exact ⟨by simp, by simp⟩
  · intro p h1 h2
    exact getAttackHitbox_none p.toEntity h1 h2

/-- C10 witness: with the enemy always in radius and always processed, the
trace hits at tick 0 and tick 30 — exactly the 30-tick separation — and the
melee-pass-disabled facts hold on the concrete mid-special state `c5state`. -/
theorem C10_special_damage_separation_witness :
    (specialRun (fun _ => true) (fun _ => true) (fun _ => 1) none c5boss 0).1 = true ∧
    (specialRun (fun _ => true) (fun _ => true) (fun _ => 1) none c5boss 30).1 = true ∧
    0 + 30 ≤ 30 ∧
    ((Player.handleInput c5player {}).update).state ≠ ATTACKING_JAB ∧
    c5player.getAttackHitbox = none ∧
    GameEngine.meleePass c5state = c5state := by
  have h0 : (specialRun (fun _ => true) (fun _ => true) (fun _ => 1) none c5boss 0).1 = true := by
    with_unfolding_all decide
  have h30 : (specialRun (fun _ => true) (fun _ => true) (fun _ => 1) none c5boss 30).1 = true := by
    with_unfolding_all decide
  refine ⟨h0, h30, ?_, ?_, ?_, ?_⟩
  · exact C10_special_damage_separation.1 _ _ _ none c5boss 0 30 h0 h30 (by omega)
  · exact (C10_special_damage_separation.2.1 c5player {} rfl (by decide) (by decide)).1
  · exact C10_special_damage_separation.2.2.1 c5player (by decide) (by decide)
  · exact C10_special_damage_separation.2.2.2 c5state
      (C10_special_damage_separation.2.2.1 c5player (by decide) (by decide))



/-- `ActorInv` transfers across any change that keeps health, maximum health
and state. -/
theorem ActorInv_fields (e e' : Entity) (h : ActorInv e) (hhp : e'.hp = e.hp)
    (hmax : e'.maxHp = e.maxHp) (hst : e'.state = e.state) : ActorInv e' := by
  unfold ActorInv at *
  rw [hhp, hmax, hst]
  exact h

/-- `setState` keeps the actor invariant whenever the new state is `DEAD`
exactly for a health of 0. -/
theorem ActorInv_setState (e : Entity) (st : EntityState) (h : ActorInv e)
    (hs : e.hp = 0 ↔ st = DEAD) : ActorInv (e.setState st) := by
  unfold ActorInv at *
  rw [setState_hp, setState_maxHp, setState_state_eq]
  exact ⟨h.1, h.2.1, hs⟩

/-- `takeDamage` with a non-negative amount preserves the actor invariant. -/
theorem ActorInv_takeDamage (e : Entity) (a d : Rat) (h : ActorInv e) (ha : 0 ≤ a) :
    ActorInv (e.takeDamage a d).2 := by
  unfold Entity.takeDamage
  split
  · exact h
  · dsimp only
    simp only [setState_HIT, setState_DEAD]
    split
    · next hle =>
      refine ⟨le_refl 0, ?_, by simp⟩
      exact le_trans h.1 h.2.1
    · next hle =>
      have hpos : 0 < e.hp - a := by
        by_contra hc
        push_neg at hc
        exact hle (by simpa using hc)
      refine ⟨le_of_lt hpos, ?_, ?_⟩
      · calc e.hp - a ≤ e.hp := by linarith
          _ ≤ e.maxHp := h.2.1
      · constructor
        · intro h0
          exact absurd h0 (ne_of_gt hpos)
        · intro hdead
          simp at hdead

/-- Health is untouched by every stage of `Entity.update`. -/
theorem update_hp (e : Entity) : (Entity.update e).hp = e.hp := by
  have h1 : (Entity.invDecay e).hp = e.hp := by
    unfold Entity.invDecay; split <;> rfl
  have h2 : ∀ x : Entity, (Entity.physics x).hp = x.hp := fun _ => rfl
  have h3 : ∀ x : Entity, (Entity.animAdvance x).hp = x.hp := by
    intro x
    unfold Entity.animAdvance
    dsimp only
    repeat' split
    all_goals simp [setState_hp]
  have h4 : ∀ x : Entity, (Entity.stateTimerStep x).hp = x.hp := by
    intro x
    unfold Entity.stateTimerStep
    dsimp only
    repeat' split
    all_goals simp [setState_hp]
  unfold Entity.update
  rw [h4, h3, h2, h1]

/-- Maximum health is untouched by every stage of `Entity.update`. -/
theorem update_maxHp (e : Entity) : (Entity.update e).maxHp = e.maxHp := by
  have h1 : (Entity.invDecay e).maxHp = e.maxHp := by
    unfold Entity.invDecay; split <;> rfl
  have h2 : ∀ x : Entity, (Entity.physics x).maxHp = x.maxHp := fun _ => rfl
  have h3 : ∀ x : Entity, (Entity.animAdvance x).maxHp = x.maxHp := by
    intro x
    unfold Entity.animAdvance
    dsimp only
    repeat' split
    all_goals simp [setState_maxHp]
  have h4 : ∀ x : Entity, (Entity.stateTimerStep x).maxHp = x.maxHp := by
    intro x
    unfold Entity.stateTimerStep
    dsimp only
    repeat' split
    all_goals simp [setState_maxHp]
  unfold Entity.update
  rw [h4, h3, h2, h1]

/-- A dead actor stays dead across `Entity.update` (the auto-return to `IDLE`
is guarded on the state not being `DEAD`). -/
theorem Entity_update_state_dead (e : Entity) (h : e.state = DEAD) :
    (Entity.update e).state = DEAD := by
  have h1 : (Entity.invDecay e).state = e.state := invDecay_state e
  have h3 : ∀ x : Entity, x.state = DEAD → (Entity.animAdvance x).state = DEAD := by
    intro x hx
    unfold Entity.animAdvance
    dsimp only
    repeat' split
    all_goals simp_all [setState_state_eq]
  have h4 : ∀ x : Entity, x.state = DEAD → (Entity.stateTimerStep x).state = DEAD := by
    intro x hx
    unfold Entity.stateTimerStep
    dsimp only
    repeat' split
    all_goals simp_all [setState_state_eq]
  unfold Entity.update
  apply h4
  apply h3
  rw [physics_state, h1, h]

/-- `Entity.update` preserves the actor invariant. -/
theorem ActorInv_update (e : Entity) (h : ActorInv e) : ActorInv (Entity.update e) := by
  by_cases h0 : e.hp = 0
  · have hd : e.state = DEAD := h.2.2.1 h0
    refine ⟨?_, ?_, ?_⟩
    · rw [update_hp]; exact h.1
    · rw [update_hp, update_maxHp]; exact h.2.1
    · rw [update_hp, Entity_update_state_dead e hd]
      exact ⟨fun _ => rfl, fun _ => h0⟩
  · have hnd : e.state ≠ DEAD := fun hd => h0 (h.2.2.2 hd)
    refine ⟨?_, ?_, ?_⟩
    · rw [update_hp]; exact h.1
    · rw [update_hp, update_maxHp]; exact h.2.1
    · rw [update_hp]
      rcases Entity_update_state e with hs | hs <;> rw [hs]
      · exact ⟨fun hc => absurd hc h0, fun hd => absurd hd hnd⟩
      · exact ⟨fun hc => absurd hc h0, fun hd => by simp at hd⟩



/-- `ActorInv` transfer: health fields agree and the state either agrees or
stays away from `DEAD` on both sides. -/
theorem ActorInv_of_proj (e' e : Entity) (h : ActorInv e) (hhp : e'.hp = e.hp)
    (hmax : e'.maxHp = e.maxHp)
    (hst : e'.state = e.state ∨ (e'.state ≠ DEAD ∧ e.state ≠ DEAD)) : ActorInv e' := by
  unfold ActorInv at *
  rw [hhp, hmax]
  rcases hst with hst | ⟨h1, h2⟩
  · rw [hst]; exact h
  · refine ⟨h.1, h.2.1, ?_, fun hd => absurd hd h1⟩
    intro h0
    exact absurd (h.2.2.1 h0) h2

/-- `setState` to a living state preserves the invariant of a living actor. -/
theorem ActorInv_setState_live (e : Entity) (st : EntityState) (h : ActorInv e)
    (hne : e.state ≠ DEAD) (hst : st ≠ DEAD) : ActorInv (e.setState st) :=
  ActorInv_setState e st h ⟨fun h0 => absurd (h.2.2.1 h0) hne, fun hd => absurd hd hst⟩

set_option maxHeartbeats 2000000 in
/-- `Player.handleInput` preserves the actor invariant: every state it sets is
a living state, and it is only reachable for a living player. -/
theorem ActorInv_handleInput (p : Player) (keys : Keys) (h : ActorInv p.toEntity) :
    ActorInv (p.handleInput keys).toEntity := by
  by_cases hg : p.state = HIT ∨ p.state = DEAD ∨ p.isChargingSpecial ∨ p.specialAttackActive
  · unfold Player.handleInput
    rw [if_pos hg]
    exact h
  · have hne : p.toEntity.state ≠ DEAD := fun hd => hg (Or.inr (Or.inl hd))
    unfold Player.handleInput
    rw [if_neg hg]
    dsimp only
    repeat' split
    all_goals first
      | exact h
      | exact ActorInv_setState_live _ _ h hne (by simp)
      | exact ActorInv_of_proj _ p.toEntity h rfl rfl (Or.inl rfl)
      | exact ActorInv_of_proj _ _ (ActorInv_setState_live p.toEntity DODGING h hne (by simp))
          rfl rfl (Or.inl rfl)
      | exact ActorInv_setState_live _ _ (ActorInv_of_proj _ p.toEntity h rfl rfl (Or.inl rfl))
          hne (by simp)

/-- `Player.takeDamage` unpacked as the inherited `Entity.takeDamage`. -/
theorem Player_takeDamage_def (p : Player) (a d : Rat) :
    p.takeDamage a d =
      ((p.toEntity.takeDamage a d).1,
       { p with toEntity := (p.toEntity.takeDamage a d).2 }) := by
  unfold Player.takeDamage
  rcases h : p.toEntity.takeDamage a d with ⟨ok, e⟩
  simp [h]

/-- `Player.update` preserves the actor invariant. -/
theorem ActorInv_Player_update (p : Player) (h : ActorInv p.toEntity) :
    ActorInv (p.update).toEntity := by
  rw [Player_update_toEntity]
  exact ActorInv_update p.toEntity h



/-- `aiFace` (tick counter and facing) preserves enemy well-formedness. -/
theorem EnemyWF_aiFace (en : Enemy) (tgt : Entity) (h : EnemyWF en) :
    EnemyWF (Enemy.aiFace en tgt) :=
  ⟨ActorInv_of_proj _ en.toEntity h.1 rfl rfl (Or.inl rfl), h.2⟩

/-- Arming the cast window preserves well-formedness of a living enemy. -/
theorem EnemyWF_aiCastArm (en : Enemy) (h : EnemyWF en)
    (hne : en.toEntity.state ≠ DEAD) : EnemyWF (Enemy.aiCastArm en) :=
  ⟨ActorInv_setState_live en.toEntity IDLE h.1 hne (by simp), h.2⟩

/-- Arming the blast charge preserves well-formedness of a living enemy. -/
theorem EnemyWF_aiBlastArm (en : Enemy) (h : EnemyWF en)
    (hne : en.toEntity.state ≠ DEAD) : EnemyWF (Enemy.aiBlastArm en) :=
  ⟨ActorInv_setState_live en.toEntity IDLE h.1 hne (by simp), h.2⟩

/-- Chasing preserves well-formedness of a living enemy. -/
theorem EnemyWF_aiChase (en : Enemy) (tgt : Entity) (h : EnemyWF en)
    (hne : en.toEntity.state ≠ DEAD) : EnemyWF (Enemy.aiChase en tgt) :=
  ⟨ActorInv_of_proj _ (en.toEntity.setState WALKING)
      (ActorInv_setState_live en.toEntity WALKING h.1 hne (by simp)) rfl rfl (Or.inl rfl),
   h.2⟩

/-- The attack roll telegraphs only `ATTACKING_JAB`/`ATTACKING_STRAIGHT` and
preserves well-formedness of a living enemy. -/
theorem EnemyWF_aiAttackRoll (en : Enemy) (r : Rat) (h : EnemyWF en)
    (hne : en.toEntity.state ≠ DEAD) : EnemyWF (Enemy.aiAttackRoll en r) := by
  constructor
  · exact ActorInv_setState_live (en.toEntity.setState IDLE) WINDING_UP
      (ActorInv_setState_live en.toEntity IDLE h.1 hne (by simp))
      (by rw [setState_state_eq]; simp) (by simp)
  · have hv : (Enemy.aiAttackRoll en r).nextAttackType
        = if r > 0.4 then ATTACKING_JAB else ATTACKING_STRAIGHT := rfl
    rw [hv]; split <;> simp

set_option maxHeartbeats 2000000 in
/-- The chase-or-attack tail of the AI preserves well-formedness of a living
enemy. -/
theorem EnemyWF_aiChaseOrAttack (en : Enemy) (tgt : Entity) (rng : List Rat)
    (h : EnemyWF en) (hne : en.toEntity.state ≠ DEAD) :
    EnemyWF (Enemy.aiChaseOrAttack en tgt rng).1 := by
  unfold Enemy.aiChaseOrAttack
  by_cases h1 : sqrtGt (Enemy.aiDist2 en tgt) (80 * en.scale)
  · rw [if_pos h1]
    exact EnemyWF_aiChase en tgt h hne
  · rw [if_neg h1]
    by_cases h2 : en.aiTick % (if en.isBoss then 20 else 40) = 0
    · rw [if_pos h2]
      exact EnemyWF_aiAttackRoll en _ h hne
    · rw [if_neg h2]
      exact ⟨ActorInv_setState_live en.toEntity IDLE h.1 hne (by simp), h.2⟩

/-- The blast-roll-then-chase tail of the AI preserves well-formedness of a
living enemy. -/
theorem EnemyWF_aiAfterCast (en : Enemy) (tgt : Entity) (rng : List Rat)
    (h : EnemyWF en) (hne : en.toEntity.state ≠ DEAD) :
    EnemyWF (Enemy.aiAfterCast en tgt rng).1 := by
  unfold Enemy.aiAfterCast
  repeat' split
  · exact EnemyWF_aiBlastArm en h hne
  · exact EnemyWF_aiChaseOrAttack en tgt _ h hne
  · exact EnemyWF_aiChaseOrAttack en tgt _ h hne

/-- `Enemy.updateAI` preserves enemy well-formedness. -/
theorem EnemyWF_updateAI (en : Enemy) (target : Option Entity) (rng : List Rat)
    (h : EnemyWF en) : EnemyWF (en.updateAI target rng).1 := by
  unfold Enemy.updateAI
  cases target with
  | none => exact h
  | some tgt =>
    dsimp only
    split
    · exact h
    · split
      · exact h
      · rename_i hg1 hg2
        have hne : en.toEntity.state ≠ DEAD := fun hd => hg1 (Or.inr (Or.inl hd))
        have hneF : (Enemy.aiFace en tgt).toEntity.state ≠ DEAD := hne
        split
        · split
          · exact EnemyWF_aiCastArm (Enemy.aiFace en tgt) (EnemyWF_aiFace en tgt h) hneF
          · exact EnemyWF_aiAfterCast (Enemy.aiFace en tgt) tgt _
              (EnemyWF_aiFace en tgt h) hneF
        · exact EnemyWF_aiAfterCast (Enemy.aiFace en tgt) tgt _
            (EnemyWF_aiFace en tgt h) hneF

/-- `Enemy.tryDodge` preserves enemy well-formedness. -/
theorem EnemyWF_tryDodge (en : Enemy) (rng : List Rat) (h : EnemyWF en) :
    EnemyWF (en.tryDodge rng).2.1 := by
  unfold Enemy.tryDodge
  split
  · exact h
  · rename_i hg
    have hne : en.toEntity.state ≠ DEAD := fun hd => hg (Or.inr (Or.inl hd))
    repeat' split
    all_goals first
      | exact h
      | exact ⟨ActorInv_of_proj _ (en.toEntity.setState DODGING)
          (ActorInv_setState_live en.toEntity DODGING h.1 hne (by simp)) rfl rfl (Or.inl rfl),
          h.2⟩

set_option maxHeartbeats 8000000 in
/-- Every stage of `Enemy.update` preserves enemy well-formedness, hence so
does the whole update. -/
theorem EnemyWF_update (en : Enemy) (tgt : Option Entity) (h : EnemyWF en) :
    EnemyWF (en.update tgt) := by
  have h1 : ∀ e, EnemyWF e → EnemyWF (Enemy.dodgeCooldownStep e) := by
    intro e he; unfold Enemy.dodgeCooldownStep
    split
    · exact ⟨ActorInv_of_proj _ e.toEntity he.1 rfl rfl (Or.inl rfl), he.2⟩
    · exact he
  have h2 : ∀ e, EnemyWF e → EnemyWF (Enemy.dodgeMoveStep e) := by
    intro e he; unfold Enemy.dodgeMoveStep
    split
    · exact ⟨ActorInv_of_proj _ e.toEntity he.1 rfl rfl (Or.inl rfl), he.2⟩
    · exact he
  have h3 : ∀ e, EnemyWF e → EnemyWF (Enemy.windupStep e) := by
    intro e he; unfold Enemy.windupStep
    split
    · rename_i hw
      split
      · refine ⟨ActorInv_setState_live e.toEntity e.nextAttackType
          (ActorInv_of_proj _ e.toEntity he.1 rfl rfl (Or.inl rfl)) ?_ he.2, he.2⟩
        show e.toEntity.state ≠ DEAD
        rw [hw]; simp
      · exact ⟨ActorInv_of_proj _ e.toEntity he.1 rfl rfl (Or.inl rfl), he.2⟩
    · exact he
  have h4 : ∀ e, EnemyWF e → EnemyWF (Enemy.blastChargeStep e) := by
    intro e he; unfold Enemy.blastChargeStep
    repeat' split
    all_goals first
      | exact he
      | exact ⟨ActorInv_of_proj _ e.toEntity he.1 rfl rfl (Or.inl rfl), he.2⟩
  have h5 : ∀ e, EnemyWF e → EnemyWF (Enemy.blastActiveStep e) := by
    intro e he; unfold Enemy.blastActiveStep
    repeat' split
    all_goals first
      | exact he
      | exact ⟨ActorInv_of_proj _ e.toEntity he.1 rfl rfl (Or.inl rfl), he.2⟩
  have h6 : ∀ e, EnemyWF e → EnemyWF (Enemy.blastCooldownStep e) := by
    intro e he; unfold Enemy.blastCooldownStep
    repeat' split
    all_goals first
      | exact he
      | exact ⟨ActorInv_of_proj _ e.toEntity he.1 rfl rfl (Or.inl rfl), he.2⟩
  have hE : ∀ e, EnemyWF e → EnemyWF (Enemy.castEmit tgt e) := by
    intro e he; unfold Enemy.castEmit
    repeat' split
    all_goals first
      | exact he
      | exact ⟨ActorInv_of_proj _ e.toEntity he.1 rfl rfl (Or.inl rfl), he.2⟩
  have h7 : ∀ e, EnemyWF e → EnemyWF (Enemy.castStep tgt e) := by
    intro e he
    have he' : EnemyWF (Enemy.castEmit tgt { e with castTimer := e.castTimer - 1 }) :=
      hE _ ⟨ActorInv_of_proj _ e.toEntity he.1 rfl rfl (Or.inl rfl), he.2⟩
    unfold Enemy.castStep
    repeat' split
    all_goals first
      | exact he
      | exact he'
      | exact ⟨ActorInv_of_proj _ _ he'.1 rfl rfl (Or.inl rfl), he'.2⟩
  have h8 : ∀ e, EnemyWF e → EnemyWF (Enemy.projectileCooldownStep e) := by
    intro e he; unfold Enemy.projectileCooldownStep
    repeat' split
    all_goals first
      | exact he
      | exact ⟨ActorInv_of_proj _ e.toEntity he.1 rfl rfl (Or.inl rfl), he.2⟩
  unfold Enemy.update
  dsimp only
  have hfin := h8 _ (h7 _ (h6 _ (h5 _ (h4 _ (h3 _ (h2 _ (h1 _ h)))))))
  exact ⟨ActorInv_update _ hfin.1, hfin.2⟩


/-! ### Whole-session invariant (C1): supporting lemmas -/

/-- A `foldl` preserves any property preserved by its body. -/
theorem foldl_preserves {α : Type} {β : Type} (P : α → Prop) (f : α → β → α)
    (l : List β) (a : α) (h : P a) (hf : ∀ x b, P x → P (f x b)) : P (l.foldl f a) := by
  induction l generalizing a with
  | nil => exact h
  | cons b t ih => exact ih (f a b) (hf a b h)

/-- Membership after `List.set`: the new element or an old one. -/
theorem mem_set_cases {α : Type} {l : List α} {k : Nat} {b x : α}
    (hx : x ∈ l.set k b) : x = b ∨ x ∈ l := by
  induction l generalizing k with
  | nil => simp [List.set] at hx
  | cons hd t ih =>
    cases k with
    | zero =>
      rcases List.mem_cons.1 hx with hc | hc
      · exact Or.inl hc
      · exact Or.inr (List.mem_cons_of_mem hd hc)
    | succ k =>
      rcases List.mem_cons.1 hx with hc | hc
      · exact Or.inr (hc ▸ List.mem_cons_self hd t)
      · rcases ih hc with hc | hc
        · exact Or.inl hc
        · exact Or.inr (List.mem_cons_of_mem hd hc)

/-- Membership is preserved backwards through `List.eraseIdx`. -/
theorem mem_of_mem_eraseIdx {α : Type} {l : List α} {k : Nat} {a : α}
    (h : a ∈ l.eraseIdx k) : a ∈ l := by
  induction l generalizing k with
  | nil => simp [List.eraseIdx] at h
  | cons hd t ih =>
    cases k with
    | zero => exact List.mem_cons_of_mem hd h
    | succ k =>
      rcases List.mem_cons.1 h with hc | hc
      · exact hc ▸ List.mem_cons_self hd t
      · exact List.mem_cons_of_mem hd (ih hc)

/-- A successful indexed lookup is a member. -/
theorem mem_of_getElemOpt {α : Type} {l : List α} {k : Nat} {a : α}
    (h : l[k]? = some a) : a ∈ l := by
  induction l generalizing k with
  | nil => simp at h
  | cons hd t ih =>
    cases k with
    | zero =>
      simp at h
      exact h ▸ List.mem_cons_self hd t
    | succ k => exact List.mem_cons_of_mem hd (ih (by simpa using h))

/-- `takeDamage` with a non-negative amount preserves enemy well-formedness. -/
theorem EnemyWF_takeDamage (en : Enemy) (a d : Rat) (h : EnemyWF en) (ha : 0 ≤ a) :
    EnemyWF (en.takeDamage a d).2 :=
  ⟨ActorInv_takeDamage en.toEntity a d h.1 ha, h.2⟩

/-- `Player.takeDamage` with a non-negative amount preserves the actor
invariant. -/
theorem ActorInv_Player_takeDamage (p : Player) (a d : Rat) (h : ActorInv p.toEntity)
    (ha : 0 ≤ a) : ActorInv (p.takeDamage a d).2.toEntity :=
  ActorInv_takeDamage p.toEntity a d h ha

/-- Re-entering `DEAD` on an already-dead actor preserves the invariant. -/
theorem ActorInv_setState_DEAD_of_dead (e : Entity) (h : ActorInv e)
    (hd : e.state = DEAD) : ActorInv (e.setState DEAD) := by
  refine ⟨?_, ?_, ?_⟩
  · rw [setState_hp]; exact h.1
  · rw [setState_hp, setState_maxHp]; exact h.2.1
  · rw [setState_hp, setState_state_eq]
    exact ⟨fun _ => rfl, fun _ => h.2.2.2 hd⟩

/-- Overwriting one roster slot with a well-formed enemy keeps the session
invariant. -/
theorem StateWF_set (s : GameState) (k : Nat) (en : Enemy) (h : StateWF s)
    (hen : EnemyWF en) : StateWF { s with enemies := s.enemies.set k en } := by
  refine ⟨h.1, fun e he => ?_⟩
  rcases mem_set_cases he with he | he
  · rw [he]; exact hen
  · exact h.2 e he

/-- A freshly constructed enemy with positive health is well-formed. -/
theorem EnemyWF_new (x y : Rat) (b : Bool) (hp scale r : Rat) (hhp : 0 < hp) :
    EnemyWF (Enemy.new x y b hp scale r) := by
  refine ⟨⟨le_of_lt hhp, le_refl _, ?_⟩, fun hcon => EntityState.noConfusion hcon⟩
  exact ⟨fun h0 => absurd h0 (ne_of_gt hhp), fun hd => EntityState.noConfusion hd⟩

/-- `spawnReplacement` leaves the player untouched. -/
theorem spawnReplacement_player (s : GameState) :
    (GameEngine.spawnReplacement s).player = s.player := rfl

/-- `spawnReplacement` appends exactly one fresh 30-hp enemy. -/
theorem spawnReplacement_enemies (s : GameState) :
    (GameEngine.spawnReplacement s).enemies =
      s.enemies ++ [Enemy.new (if (randPop s.rng).1 > 0.5 then -150 else 950)
        (250 + (randPop (randPop s.rng).2).1 * 330) false 30 1
        (randPop (randPop (randPop s.rng).2).2).1] := rfl

/-- `spawnReplacement` keeps the session invariant. -/
theorem StateWF_spawnReplacement (s : GameState) (h : StateWF s) :
    StateWF (GameEngine.spawnReplacement s) := by
  refine ⟨?_, fun en hen => ?_⟩
  · rw [spawnReplacement_player]; exact h.1
  · rw [spawnReplacement_enemies, List.mem_append] at hen
    rcases hen with hen | hen
    · exact h.2 en hen
    · rw [List.mem_singleton] at hen
      rw [hen]
      exact EnemyWF_new _ _ _ _ _ _ (by norm_num)

/-- `spawnEnemies` keeps the session invariant. -/
theorem StateWF_spawnEnemies (s : GameState) (h : StateWF s) :
    StateWF (GameEngine.spawnEnemies s) := by
  unfold GameEngine.spawnEnemies
  split
  · exact h
  · exact foldl_preserves StateWF _ _ s h (fun x _ hx => StateWF_spawnReplacement x hx)

/-- `spawnBoss` with a positive boss health keeps the session invariant. -/
theorem StateWF_spawnBoss (hp scale : Rat) (s : GameState) (h : StateWF s)
    (hhp : 0 < hp) : StateWF (GameEngine.spawnBoss hp scale s) := by
  refine foldl_preserves StateWF _ _ _ ?_ (fun x _ hx => StateWF_spawnReplacement x hx)
  refine ⟨h.1, fun en hen => ?_⟩
  have hen2 : en ∈ s.enemies.filter (fun e => e.state = DEAD)
      ++ [Enemy.new (800 + 120) 450 true hp scale (randPop s.rng).1] := hen
  rcases List.mem_append.1 hen2 with hc | hc
  · exact h.2 en (List.mem_filter.1 hc).1
  · rw [List.mem_singleton] at hc
    rw [hc]
    exact EnemyWF_new _ _ _ _ _ _ hhp

/-- `spawnBoss` leaves the player untouched. -/
theorem spawnBoss_player (hp scale : Rat) (s : GameState) :
    (GameEngine.spawnBoss hp scale s).player = s.player := by
  refine foldl_preserves (fun x : GameState => x.player = s.player) _ _ _ rfl
    (fun x _ hx => ?_)
  show (GameEngine.spawnReplacement x).player = s.player
  rw [spawnReplacement_player]
  exact hx



/-- `progressionStep` keeps the session invariant (the spawned bosses have
positive health 200 / 500). -/
theorem StateWF_progressionStep (s : GameState) (h : StateWF s) :
    StateWF (GameEngine.progressionStep s) := by
  unfold GameEngine.progressionStep
  dsimp only
  repeat' split
  · exact StateWF_spawnBoss 200 2 s h (by norm_num)
  · exact StateWF_spawnBoss 500 2.5 s h (by norm_num)
  · exact ⟨h.1, fun e he => h.2 e he⟩
  · exact h

/-- `progressionStep` leaves the player untouched. -/
theorem progressionStep_player (s : GameState) :
    (GameEngine.progressionStep s).player = s.player := by
  unfold GameEngine.progressionStep
  dsimp only
  repeat' split
  · exact spawnBoss_player 200 2 s
  · exact spawnBoss_player 500 2.5 s
  · rfl
  · rfl

/-- `transitionStep` keeps the session invariant for a living player: the
+50 heal is capped at `maxHp` and keeps health positive, so the
health-0-iff-dead equivalence survives. -/
theorem StateWF_transitionStep (s : GameState) (h : StateWF s)
    (hpos : 0 < s.player.hp) : StateWF (GameEngine.transitionStep s) := by
  unfold GameEngine.transitionStep
  split
  · apply StateWF_spawnEnemies
    have hinv := h.1
    have h0 : (0:Rat) < s.player.toEntity.hp := hpos
    have hmax : (0:Rat) < s.player.toEntity.maxHp := lt_of_lt_of_le h0 hinv.2.1
    have hne : s.player.toEntity.state ≠ DEAD := fun hd => (ne_of_gt h0) (hinv.2.2.2 hd)
    have hpos2 : (0:Rat) < min s.player.toEntity.maxHp (s.player.toEntity.hp + 50) :=
      lt_min hmax (by linarith)
    refine ⟨⟨le_of_lt hpos2, min_le_left _ _, ?_⟩, fun e he => h.2 e he⟩
    exact ⟨fun hc => absurd hc (ne_of_gt hpos2), fun hd => absurd hd hne⟩
  · exact h

/-- `clampPlayer` keeps the session invariant (position only). -/
theorem StateWF_clampPlayer (s : GameState) (h : StateWF s) :
    StateWF (GameEngine.clampPlayer s) :=
  ⟨ActorInv_of_proj _ s.player.toEntity h.1 rfl rfl (Or.inl rfl), fun e he => h.2 e he⟩

/-- The enemy-melee-vs-player check keeps the session invariant. -/
theorem StateWF_enemyAttackVsPlayer (en : Enemy) (s : GameState) (h : StateWF s) :
    StateWF (GameEngine.enemyAttackVsPlayer en s) := by
  unfold GameEngine.enemyAttackVsPlayer
  cases hx : Enemy.getAttackHitbox en with
  | none => exact h
  | some eAttack =>
    dsimp only
    split
    · rcases ht : s.player.takeDamage 6 (en.facing : Rat) with ⟨ok, pl⟩
      have hpl : ActorInv pl.toEntity := by
        have hti := ActorInv_Player_takeDamage s.player 6 (en.facing : Rat) h.1 (by norm_num)
        rw [ht] at hti
        exact hti
      dsimp only
      split
      · exact ⟨hpl, fun e he => h.2 e he⟩
      · exact ⟨hpl, fun e he => h.2 e he⟩
    · exact h

/-- The boss-blast-vs-player check keeps the session invariant. -/
theorem StateWF_bossBlastVsPlayer (en : Enemy) (s : GameState) (h : StateWF s) :
    StateWF (GameEngine.bossBlastVsPlayer en s) := by
  unfold GameEngine.bossBlastVsPlayer
  dsimp only
  split
  · exact ⟨ActorInv_Player_takeDamage s.player 10 _ h.1 (by norm_num),
           fun e he => h.2 e he⟩
  · exact h

/-- The boss-projectiles-vs-player check keeps both the enemy's and the
session's invariants. -/
theorem WF_bossProjectilesVsPlayer (en : Enemy) (s : GameState) (hen : EnemyWF en)
    (h : StateWF s) :
    EnemyWF (GameEngine.bossProjectilesVsPlayer en s).1 ∧
      StateWF (GameEngine.bossProjectilesVsPlayer en s).2 := by
  unfold GameEngine.bossProjectilesVsPlayer
  refine foldl_preserves (fun a : Enemy × GameState => EnemyWF a.1 ∧ StateWF a.2)
    _ _ _ ⟨hen, h⟩ ?_
  intro acc j hacc
  obtain ⟨en1, s1⟩ := acc
  obtain ⟨hen1, hs1⟩ := hacc
  dsimp only at hen1 hs1 ⊢
  cases hj : en1.projectiles[j]? with
  | none => exact ⟨hen1, hs1⟩
  | some p =>
    dsimp only
    split
    · rcases ht : s1.player.takeDamage 15 (if p.vx > 0 then 1 else -1) with ⟨ok, pl⟩
      have hpl : ActorInv pl.toEntity := by
        have hti := ActorInv_Player_takeDamage s1.player 15 (if p.vx > 0 then 1 else -1)
          hs1.1 (by norm_num)
        rw [ht] at hti
        exact hti
      dsimp only
      exact ⟨⟨ActorInv_of_proj _ en1.toEntity hen1.1 rfl rfl (Or.inl rfl), hen1.2⟩,
             hpl, fun e he => hs1.2 e he⟩
    · exact ⟨hen1, hs1⟩

/-- The player-melee body keeps the session invariant. -/
theorem StateWF_meleeBody (pAttack : Rect) (s : GameState) (k : Nat) (h : StateWF s) :
    StateWF (GameEngine.meleeBody pAttack s k) := by
  unfold GameEngine.meleeBody
  cases hk : s.enemies[k]? with
  | none => exact h
  | some en =>
    have hWF : EnemyWF en := h.2 en (mem_of_getElemOpt hk)
    dsimp only
    split
    · rcases hd : en.tryDodge s.rng with ⟨dodged, en1, rng1⟩
      have hWF1 : EnemyWF en1 := by
        have hti := EnemyWF_tryDodge en s.rng hWF
        rw [hd] at hti
        exact hti
      dsimp only
      have hS1 : StateWF { s with enemies := s.enemies.set k en1, rng := rng1 } := by
        refine ⟨h.1, fun e he => ?_⟩
        rcases mem_set_cases he with he | he
        · rw [he]; exact hWF1
        · exact h.2 e he
      split
      · exact hS1
      · rcases ht : en1.takeDamage (if s.player.state = ATTACKING_JAB then 9 else 18)
            (s.player.facing : Rat) with ⟨ok, en2⟩
        have hWF2 : EnemyWF en2 := by
          have hti := EnemyWF_takeDamage en1
            (if s.player.state = ATTACKING_JAB then 9 else 18)
            (s.player.facing : Rat) hWF1 (by split <;> norm_num)
          rw [ht] at hti
          exact hti
        dsimp only
        have hS2 : StateWF { s with enemies := (s.enemies.set k en1).set k en2,
                                    rng := rng1 } := by
          refine ⟨h.1, fun e he => ?_⟩
          rcases mem_set_cases he with he | he
          · rw [he]; exact hWF2
          · rcases mem_set_cases he with he | he
            · rw [he]; exact hWF1
            · exact h.2 e he
        split
        · exact ⟨hS2.1, fun e he => hS2.2 e he⟩
        · exact hS2
    · exact h

/-- The player-melee pass keeps the session invariant. -/
theorem StateWF_meleePass (s : GameState) (h : StateWF s) :
    StateWF (GameEngine.meleePass s) := by
  unfold GameEngine.meleePass
  cases hx : Player.getAttackHitbox s.player with
  | none => exact h
  | some pAttack =>
    exact foldl_preserves StateWF _ _ s h (fun x k hx2 => StateWF_meleeBody pAttack x k hx2)

/-- The player-special body keeps the session invariant. -/
theorem StateWF_specialBody (s : GameState) (k : Nat) (h : StateWF s) :
    StateWF (GameEngine.specialBody s k) := by
  unfold GameEngine.specialBody
  cases hk : s.enemies[k]? with
  | none => exact h
  | some en =>
    dsimp only
    split
    · split
      · rcases ht : en.takeDamage 15 (if en.x > s.player.x then 1 else -1) with ⟨ok, en2⟩
        have hWF2 : EnemyWF en2 := by
          have hti := EnemyWF_takeDamage en 15 (if en.x > s.player.x then 1 else -1)
            (h.2 en (mem_of_getElemOpt hk)) (by norm_num)
          rw [ht] at hti
          exact hti
        dsimp only
        exact StateWF_set s k en2 h hWF2
      · exact h
    · exact h

/-- The player-special pass keeps the session invariant. -/
theorem StateWF_specialPass (s : GameState) (h : StateWF s) :
    StateWF (GameEngine.specialPass s) := by
  unfold GameEngine.specialPass
  split
  · exact foldl_preserves StateWF _ _ s h (fun x k hx => StateWF_specialBody x k hx)
  · exact h



set_option maxHeartbeats 2000000 in
/-- Reaping a dead enemy keeps the session invariant: the chaos/boss
bookkeeping touches no actor's health fields, the `splice` only removes a
roster entry, and the optional replacement is a fresh well-formed enemy. -/
theorem StateWF_reapStep (k : Nat) (en : Enemy) (s : GameState) (h : StateWF s) :
    StateWF (GameEngine.reapStep k en s) := by
  unfold GameEngine.reapStep
  dsimp only
  repeat' split
  all_goals first
    | exact StateWF_spawnReplacement _
        ⟨h.1, fun e he => h.2 e (mem_of_mem_eraseIdx he)⟩
    | exact ⟨h.1, fun e he => h.2 e (mem_of_mem_eraseIdx he)⟩

/-- The tail of the enemy `forEach` body (projectile check, slot write-back,
reap check) keeps the session invariant. -/
theorem StateWF_enemyBody_tail (en2 : Enemy) (k : Nat) (s3 : GameState)
    (hen2 : EnemyWF en2) (h3 : StateWF s3) :
    StateWF (if (GameEngine.bossProjectilesVsPlayer en2 s3).1.state = DEAD ∧
        (GameEngine.bossProjectilesVsPlayer en2 s3).1.stateTimer = 0 then
      GameEngine.reapStep k (GameEngine.bossProjectilesVsPlayer en2 s3).1
        { (GameEngine.bossProjectilesVsPlayer en2 s3).2 with
            enemies := (GameEngine.bossProjectilesVsPlayer en2 s3).2.enemies.set k
              (GameEngine.bossProjectilesVsPlayer en2 s3).1 }
    else
      { (GameEngine.bossProjectilesVsPlayer en2 s3).2 with
          enemies := (GameEngine.bossProjectilesVsPlayer en2 s3).2.enemies.set k
            (GameEngine.bossProjectilesVsPlayer en2 s3).1 }) := by
  have hBP := WF_bossProjectilesVsPlayer en2 s3 hen2 h3
  have hS5 : StateWF { (GameEngine.bossProjectilesVsPlayer en2 s3).2 with
      enemies := (GameEngine.bossProjectilesVsPlayer en2 s3).2.enemies.set k
        (GameEngine.bossProjectilesVsPlayer en2 s3).1 } :=
    StateWF_set _ k _ hBP.2 hBP.1
  split
  · exact StateWF_reapStep k _ _ hS5
  · exact hS5

set_option maxHeartbeats 1000000 in
/-- The enemy `forEach` body keeps the session invariant. -/
theorem StateWF_enemyBody (s : GameState) (k : Nat) (h : StateWF s) :
    StateWF (GameEngine.enemyBody s k) := by
  unfold GameEngine.enemyBody
  cases hk : s.enemies[k]? with
  | none => exact h
  | some en =>
    have hWF : EnemyWF en := h.2 en (mem_of_getElemOpt hk)
    dsimp only
    generalize hR1 : (en.updateAI (some s.player.toEntity) s.rng).2 = rng1
    generalize hE2 : (en.updateAI (some s.player.toEntity) s.rng).1.update
      (some s.player.toEntity) = en2
    have hWF2 : EnemyWF en2 :=
      hE2 ▸ EnemyWF_update _ _ (EnemyWF_updateAI en (some s.player.toEntity) s.rng hWF)
    have hS1 : StateWF { s with enemies := s.enemies.set k en2, rng := rng1 } := by
      refine ⟨h.1, fun e he => ?_⟩
      rcases mem_set_cases he with he | he
      · rw [he]; exact hWF2
      · exact h.2 e he
    have hS2 := StateWF_enemyAttackVsPlayer en2 _ hS1
    have hS3 : StateWF (if en2.isBoss ∧ en2.blastActive then
        GameEngine.bossBlastVsPlayer en2 (GameEngine.enemyAttackVsPlayer en2
          { s with enemies := s.enemies.set k en2, rng := rng1 })
      else GameEngine.enemyAttackVsPlayer en2
          { s with enemies := s.enemies.set k en2, rng := rng1 }) := by
      split
      · exact StateWF_bossBlastVsPlayer en2 _ hS2
      · exact hS2
    exact StateWF_enemyBody_tail en2 k _ hWF2 hS3

/-- The enemy `forEach` loop keeps the session invariant. -/
theorem StateWF_enemyLoop (s : GameState) (h : StateWF s) :
    StateWF (GameEngine.enemyLoop s) := by
  unfold GameEngine.enemyLoop
  refine foldl_preserves StateWF _ _ s h (fun x k hx => ?_)
  dsimp only
  split
  · exact StateWF_enemyBody x k hx
  · exact hx

/-- Everything after the player-death check keeps the session invariant when
the player enters the tick alive. -/
theorem StateWF_finishTick (s : GameState) (h : StateWF s) (hpos : 0 < s.player.hp) :
    StateWF (GameEngine.finishTick s) := by
  unfold GameEngine.finishTick
  dsimp only
  have h1 : StateWF (GameEngine.progressionStep s) := StateWF_progressionStep s h
  have hpos1 : 0 < (GameEngine.progressionStep s).player.hp := by
    rw [progressionStep_player]; exact hpos
  have h2 := StateWF_transitionStep _ h1 hpos1
  have h3 := StateWF_clampPlayer _ h2
  have h4 : StateWF { GameEngine.clampPlayer (GameEngine.transitionStep
      (GameEngine.progressionStep s)) with
      player := (GameEngine.clampPlayer (GameEngine.transitionStep
        (GameEngine.progressionStep s))).player.update } :=
    ⟨ActorInv_Player_update _ h3.1, fun e he => h3.2 e he⟩
  have h5 := StateWF_meleePass _ h4
  have h6 := StateWF_specialPass _ h5
  have h7 := StateWF_enemyLoop _ h6
  exact ⟨h7.1, fun e he => h7.2 e he⟩

/-- `GameEngine.update` keeps the session invariant. -/
theorem StateWF_update (s : GameState) (h : StateWF s) :
    StateWF (GameEngine.update s) := by
  unfold GameEngine.update
  split
  · exact h
  · split
    · exact ⟨h.1, fun e he => h.2 e he⟩
    · dsimp only
      have hh : ActorInv (s.player.handleInput s.keys).toEntity :=
        ActorInv_handleInput s.player s.keys h.1
      split
      · next hle =>
        have h0 : (s.player.handleInput s.keys).toEntity.hp = 0 := le_antisymm hle hh.1
        have hd : (s.player.handleInput s.keys).toEntity.state = DEAD := hh.2.2.1 h0
        exact ⟨ActorInv_setState_DEAD_of_dead _ hh hd, fun e he => h.2 e he⟩
      · next hgt =>
        exact StateWF_finishTick _ ⟨hh, fun e he => h.2 e he⟩ (not_le.mp hgt)

/-- The constructor's state satisfies the session invariant. -/
theorem StateWF_init (rng : List Rat) : StateWF (GameEngine.init rng) := by
  apply StateWF_spawnEnemies
  refine ⟨?_, fun en hen => ?_⟩
  · refine ⟨?_, ?_, ?_⟩
    · show (0:Rat) ≤ 100
      norm_num
    · show (100:Rat) ≤ 100
      norm_num
    · refine ⟨fun hc => ?_, fun hd => EntityState.noConfusion hd⟩
      have : (100:Rat) = 0 := hc
      norm_num at this
  · exact absurd hen (List.not_mem_nil en)

/-- C1: the whole-session health invariant.  The constructor establishes it,
every `GameEngine.update` tick preserves it (so by induction it holds at every
point of a session: every actor always has `0 ≤ hp ≤ maxHp` and `hp = 0` holds
exactly in the `DEAD` state), and a dead actor never takes further damage —
`takeDamage` on a `DEAD` entity returns `false` and leaves it untouched. -/
theorem C1_health_dead_invariant :
    (∀ rng : List Rat, StateWF (GameEngine.init rng)) ∧
    (∀ s : GameState, StateWF s → StateWF (GameEngine.update s)) ∧
    (∀ (e : Entity) (a d : Rat), e.state = DEAD → e.takeDamage a d = (false, e)) := by
  refine ⟨StateWF_init, StateWF_update, fun e a d hd => ?_⟩
  unfold Entity.takeDamage
  rw [if_pos (Or.inr hd)]

theorem C1_health_dead_invariant_witness :
    StateWF (GameEngine.update (GameEngine.init [])) ∧
    ({ Entity.new 10 34 100 with state := DEAD } : Entity).takeDamage 5 1
      = (false, { Entity.new 10 34 100 with state := DEAD }) :=
  ⟨C1_health_dead_invariant.2.1 (GameEngine.init [])
      (C1_health_dead_invariant.1 []),
   C1_health_dead_invariant.2.2 _ 5 1 rfl⟩


end SunsetBrawler
